import Mathlib

/-!
Verification development for the capomastro dependency-aggregation and
artifact-archiving core.

The data model and the functions below are shallow embeddings of the
repository's code.  Functions present in the source tree
(`projects/models.py`, `jenkins/models.py`) are translated directly from
that code.  The task-chain functions (`projects/tasks.py`,
`projects/helpers.py`, `archives/models.py`, `archives/tasks.py`) are not
part of the source tree, only their tests are; those are modelled from the
specification, as marked in their doc comments.
-/

/-- A timezone-aware UTC datetime as used by `django.utils.timezone.now()`:
year, month, day, hour, minute, second and microsecond fields.  Python
`datetime.replace` substitutes only the named fields and keeps the rest. -/
structure PyDateTime where
  year : Nat
  month : Nat
  day : Nat
  hour : Nat
  minute : Nat
  second : Nat
  microsecond : Nat
deriving DecidableEq, Repr

/-- Python `datetime.replace(hour=h, minute=m, second=s)`: the microsecond
field is preserved, exactly as in `projects/models.py` line 115. -/
def PyDateTime.replaceHMS (t : PyDateTime) (h m s : Nat) : PyDateTime :=
  { t with hour := h, minute := m, second := s }

/-- Lexicographic strict order on datetimes, the comparison Python uses for
`datetime` objects (and the store uses for `requested_at__gt`). -/
def dtLt (a b : PyDateTime) : Bool :=
  if a.year = b.year then
    if a.month = b.month then
      if a.day = b.day then
        if a.hour = b.hour then
          if a.minute = b.minute then
            if a.second = b.second then
              decide (a.microsecond < b.microsecond)
            else decide (a.second < b.second)
          else decide (a.minute < b.minute)
        else decide (a.hour < b.hour)
      else decide (a.day < b.day)
    else decide (a.month < b.month)
  else decide (a.year < b.year)

/-- Non-strict datetime order, used for `requested_at__lte`. -/
def dtLe (a b : PyDateTime) : Bool :=
  !(dtLt b a)

/-- Zero-padding to two digits, as `strftime` does for month and day. -/
def pad2 (n : Nat) : String :=
  if n < 10 then "0" ++ toString n else toString n

/-- Zero-padding to four digits, as `strftime` does for the year. -/
def pad4 (n : Nat) : String :=
  if n < 10 then "000" ++ toString n
  else if n < 100 then "00" ++ toString n
  else if n < 1000 then "0" ++ toString n
  else toString n

/-- The result of `strftime` on the directives that survive the Python
percent-formatting in `generate_projectbuild_id`: a YYYYMMDD date string. -/
def formatYmd (t : PyDateTime) : String :=
  pad4 t.year ++ pad2 t.month ++ pad2 t.day

/-- A row of `jenkins.models.Build`.  `id` is the primary key, `job` the
foreign key to the Job row.  `build_id`, `phase` and `status` are the
character fields of the model. -/
structure Build where
  id : Nat
  job : Nat
  build_id : String
  number : Int
  phase : String
  status : String
deriving DecidableEq, Repr

/-- A row of `jenkins.models.Artifact`. -/
structure Artifact where
  id : Nat
  build : Nat
  filename : String
  url : String
deriving DecidableEq, Repr

/-- A row of `projects.models.Dependency`: a nullable foreign key to a Job
plus a unique name. -/
structure Dependency where
  id : Nat
  name : String
  job : Option Nat
deriving DecidableEq, Repr

/-- A row of `projects.models.ProjectDependency`: the join between a Project
and a Dependency, carrying `auto_track` and the nullable `current_build`
foreign key. -/
structure ProjectDependency where
  id : Nat
  dependency : Nat
  project : Nat
  auto_track : Bool
  current_build : Option Nat
deriving DecidableEq, Repr

/-- A row of `projects.models.ProjectBuild`.  `build_key` is the
daily-unique key (called `build_id` in the old model revision), `phase`
mirrors the underlying build phases, `ended_at` is null until
finalization. -/
structure ProjectBuild where
  id : Nat
  project : Nat
  build_key : String
  status : String
  phase : String
  requested_at : PyDateTime
  ended_at : Option PyDateTime
deriving DecidableEq, Repr

/-- A row of `projects.models.ProjectBuildDependency`: the join between a
ProjectBuild and a Dependency, with a nullable foreign key to the concrete
Build once one arrives. -/
structure ProjectBuildDependency where
  id : Nat
  projectbuild : Nat
  dependency : Nat
  build : Option Nat
deriving DecidableEq, Repr

/-- A row of `archives.models.Archive`: a transport endpoint configuration
with a path policy name and the `default` flag. -/
structure Archive where
  id : Nat
  basedir : String
  policy : String
  username : String
  password : String
  isDefault : Bool
deriving DecidableEq, Repr

/-- A row of `archives.models.ArchiveArtifact`: one archived copy of one
build Artifact, either build-scoped (`projectbuild_dependency = none`) or
project-scoped (bound to a ProjectBuildDependency). -/
structure ArchiveArtifact where
  id : Nat
  archive : Nat
  build : Nat
  artifact : Nat
  archived_path : String
  archived_size : Option Nat
  archived_at : Option PyDateTime
  projectbuild_dependency : Option Nat
deriving DecidableEq, Repr

/-- The persisted store: one list per table, plus a fresh-key counter for
newly inserted rows. -/
structure DB where
  builds : List Build
  artifacts : List Artifact
  dependencies : List Dependency
  projectDependencies : List ProjectDependency
  projectBuilds : List ProjectBuild
  projectBuildDependencies : List ProjectBuildDependency
  archives : List Archive
  archiveArtifacts : List ArchiveArtifact
  nextId : Nat
deriving DecidableEq, Repr

/-- `Build.objects.get(pk=...)`, returning the first row with the key. -/
def lookupBuild (db : DB) (pk : Nat) : Option Build :=
  db.builds.find? (fun b => b.id = pk)

/-- Translated from `jenkins/models.py` `Build.translate_build_phase`:
Jenkins notifications changed the phase name from FINISHED to FINALIZED. -/
def translate_build_phase (phase : String) : String :=
  if phase = "FINISHED" then "FINALIZED" else phase

/-- The build with the largest `number` in a list, first occurrence winning
ties: the row produced by `order_by("-number")[0]`. -/
def maxByNumber (l : List Build) : Option Build :=
  l.foldl
    (fun acc b =>
      match acc with
      | none => some b
      | some m => if m.number < b.number then some b else some m)
    none

/-- Translated from `projects/models.py` `Dependency.get_current_build`:
if the dependency has a job, filter that job's builds on phase FINISHED and
return the one with the highest number, else return nothing. -/
def get_current_build (db : DB) (d : Dependency) : Option Build :=
  match d.job with
  | none => none
  | some j =>
    let finished_builds := db.builds.filter (fun b => b.job = j && b.phase = "FINISHED")
    if 0 < finished_builds.length then maxByNumber finished_builds else none

/-- Translated from `projects/models.py` `generate_projectbuild_id`: count
the project's ProjectBuilds with `requested_at` strictly after
`today.replace(hour=0, minute=0, second=0)` and at most
`today.replace(hour=23, minute=59, second=59)` (both bounds keep `today`'s
microsecond), then render `strftime` of the percent-formatted template
`"%%Y%%m%%d.%d" % today_count`, i.e. the YYYYMMDD date, a dot and the
count. -/
def generate_projectbuild_id (db : DB) (projectId : Nat) (today : PyDateTime) : String :=
  let lower := today.replaceHMS 0 0 0
  let upper := today.replaceHMS 23 59 59
  let today_count :=
    (db.projectBuilds.filter
      (fun pb => pb.project = projectId && dtLt lower pb.requested_at &&
        dtLe pb.requested_at upper)).length
  formatYmd today ++ "." ++ toString today_count

/-- Does some Dependency row tie this ProjectDependency's dependency to the
build's job?  This is the `instance.job.dependency_set` membership test of
the signal handler. -/
def dependsOnJob (db : DB) (pd : ProjectDependency) (b : Build) : Bool :=
  db.dependencies.any (fun d => d.job = some b.job && d.id = pd.dependency)

/-- Translated from `projects/models.py` `handle_new_build`: for every
Dependency of the saved build's job, every auto-tracked ProjectDependency
referencing it gets `current_build` set to the new build. -/
def handle_new_build (db : DB) (b : Build) : DB :=
  { db with
    projectDependencies := db.projectDependencies.map
      (fun pd =>
        if dependsOnJob db pd b && pd.auto_track then
          { pd with current_build := some b.id }
        else pd) }

/-- Modelled from the spec: step 1 of `ReconcileBuild` in the missing
`projects/tasks.py` resolves the Dependencies whose job matches the
incoming build's job. -/
def depsForJob (db : DB) (b : Build) : List Dependency :=
  db.dependencies.filter (fun d => d.job = some b.job)

/-- Modelled from the spec: step 2 of `ReconcileBuild` in the missing
`projects/tasks.py` sets `current_build` on every auto-tracked
ProjectDependency referencing a Dependency of the incoming build's job
(unconditional overwrite). -/
def autoTrackStep (db : DB) (b : Build) : DB :=
  { db with
    projectDependencies := db.projectDependencies.map
      (fun pd =>
        if dependsOnJob db pd b && pd.auto_track then
          { pd with current_build := some b.id }
        else pd) }

/-- Modelled from the spec: the row-selection condition of step 3 of
`ReconcileBuild` in the missing `projects/tasks.py` — the row's dependency
matches the incoming build's job and the owning ProjectBuild's key equals
the build's `build_id`. -/
def rowMatches (db : DB) (b : Build) (r : ProjectBuildDependency) : Bool :=
  db.dependencies.any (fun d => d.job = some b.job && d.id = r.dependency) &&
    match db.projectBuilds.find? (fun pb => pb.id = r.projectbuild) with
    | some pb => pb.build_key = b.build_id
    | none => false

/-- Modelled from the spec: step 3 of `ReconcileBuild` in the missing
`projects/tasks.py` binds the build onto each matching unbound row exactly
once; rows already bound are left alone. -/
def bindStep (db : DB) (b : Build) : DB :=
  { db with
    projectBuildDependencies := db.projectBuildDependencies.map
      (fun r =>
        if rowMatches db b r && r.build = none then { r with build := some b.id }
        else r) }

/-- The ProjectBuildDependency rows owned by a given ProjectBuild. -/
def rowsOf (db : DB) (pbId : Nat) : List ProjectBuildDependency :=
  db.projectBuildDependencies.filter (fun r => r.projectbuild = pbId)

/-- The Build a row is bound to, if any. -/
def boundBuild (db : DB) (r : ProjectBuildDependency) : Option Build :=
  match r.build with
  | none => none
  | some pk => lookupBuild db pk

/-- Does the row have a bound Build whose phase is FINALIZED? -/
def rowFinalized (db : DB) (r : ProjectBuildDependency) : Bool :=
  match boundBuild db r with
  | some bb => bb.phase = "FINALIZED"
  | none => false

/-- Does the row have a bound Build whose status is SUCCESS? -/
def rowSuccessful (db : DB) (r : ProjectBuildDependency) : Bool :=
  match boundBuild db r with
  | some bb => bb.status = "SUCCESS"
  | none => false

/-- Every row of the ProjectBuild has a bound FINALIZED Build. -/
def allRowsFinalized (db : DB) (pbId : Nat) : Bool :=
  (rowsOf db pbId).all (rowFinalized db)

/-- Every row of the ProjectBuild has a bound Build with status SUCCESS. -/
def allRowsSuccessful (db : DB) (pbId : Nat) : Bool :=
  (rowsOf db pbId).all (rowSuccessful db)

/-- The ProjectBuilds touched in step 3: owners of the matching rows. -/
def touchedIds (db : DB) (b : Build) : List Nat :=
  (db.projectBuildDependencies.filter (rowMatches db b)).map
    (fun r => r.projectbuild)

/-- Modelled from the spec: step 4 of `ReconcileBuild` in the missing
`projects/tasks.py` — for every ProjectBuild touched in step 3 that is
still INCOMPLETE and whose rows all have bound FINALIZED builds, set the
status to SUCCESS when all bound builds succeeded and to FAILURE
otherwise, mirror the phase to FINALIZED and stamp `ended_at`. -/
def finalizeStep (db : DB) (b : Build) (now : PyDateTime) : DB :=
  let ids := touchedIds db b
  { db with
    projectBuilds := db.projectBuilds.map
      (fun pb =>
        if ids.contains pb.id && pb.status = "INCOMPLETE" &&
            allRowsFinalized db pb.id then
          { pb with
            status := if allRowsSuccessful db pb.id then "SUCCESS" else "FAILURE",
            phase := "FINALIZED",
            ended_at := some now }
        else pb) }

/-- Modelled from the spec: the seeding rule of the auto-aggregation path
in the missing `projects/helpers.py` — the latest build bound for this
dependency in one of the project's ProjectBuilds, falling back to the
ProjectDependency's `current_build`. -/
def latestKnownBuild (db : DB) (projectId : Nat) (pd : ProjectDependency) : Option Nat :=
  let bound :=
    (db.projectBuildDependencies.filter
      (fun r => r.dependency = pd.dependency &&
        db.projectBuilds.any
          (fun pb => pb.id = r.projectbuild && pb.project = projectId))).filterMap
      (fun r => r.build)
  match bound.getLast? with
  | some pk => some pk
  | none => pd.current_build

/-- Modelled from the spec: the ProjectBuild factory of the missing
`projects/helpers.py` as used by the auto-aggregation path — a fresh
ProjectBuild with a generated daily key, status INCOMPLETE and no end
timestamp, plus one ProjectBuildDependency row per ProjectDependency of
the project, binding the freshly arrived build for its own dependency and
seeding every other dependency from its latest known build. -/
def createProjectBuild (db : DB) (projectId arrivedDep : Nat) (b : Build)
    (now : PyDateTime) : DB :=
  let key := generate_projectbuild_id db projectId now
  let pbId := db.nextId
  let pds := db.projectDependencies.filter (fun pd => pd.project = projectId)
  let newPB : ProjectBuild :=
    { id := pbId, project := projectId, build_key := key,
      status := "INCOMPLETE", phase := "UNKNOWN", requested_at := now,
      ended_at := none }
  let newRows := pds.enum.map
    (fun p =>
      ({ id := pbId + 1 + p.1, projectbuild := pbId,
         dependency := p.2.dependency,
         build :=
           if p.2.dependency = arrivedDep then some b.id
           else latestKnownBuild db projectId p.2 } : ProjectBuildDependency))
  { db with
    projectBuilds := db.projectBuilds ++ [newPB],
    projectBuildDependencies := db.projectBuildDependencies ++ newRows,
    nextId := pbId + 1 + pds.length }

/-- Does the project have an unfinished ProjectBuild with a row pending for
this dependency? -/
def hasPendingPB (db : DB) (depId projectId : Nat) : Bool :=
  db.projectBuilds.any
    (fun pb => pb.project = projectId && pb.status = "INCOMPLETE" &&
      db.projectBuildDependencies.any
        (fun r => r.projectbuild = pb.id && r.dependency = depId))

/-- The (dependency, project) pairs considered by the auto-aggregation
trigger: every project auto-tracking a Dependency of the build's job. -/
def autoPairs (db : DB) (b : Build) : List (Nat × Nat) :=
  (depsForJob db b).foldr
    (fun d acc =>
      (db.projectDependencies.filter
        (fun pd => pd.dependency = d.id && pd.auto_track)).map
        (fun pd => (d.id, pd.project)) ++ acc)
    []

/-- Modelled from the spec: step 5 of `ReconcileBuild` in the missing
`projects/tasks.py` — when the incoming build is FINALIZED, every project
auto-tracking its Dependency and having no unfinished ProjectBuild pending
for it gets a new ProjectBuild created, with the arrived build bound
immediately. -/
def autoCreateStep (db : DB) (b : Build) (now : PyDateTime) : DB :=
  (autoPairs db b).foldl
    (fun acc p =>
      if b.phase = "FINALIZED" && !(hasPendingPB acc p.1 p.2) then
        createProjectBuild acc p.2 p.1 b now
      else acc)
    db

/-- Modelled from the spec: the body of `ReconcileBuild` in the missing
`projects/tasks.py`, steps 2 to 5 in order, for a resolved build row. -/
def reconcile (db : DB) (b : Build) (now : PyDateTime) : DB :=
  autoCreateStep (finalizeStep (bindStep (autoTrackStep db b) b) b now) b now

/-- Modelled from the spec: the task entry point
`process_build_dependencies` of the missing `projects/tasks.py`, which
resolves the build row by primary key and reconciles it. -/
def process_build_dependencies (db : DB) (buildPk : Nat) (now : PyDateTime) : DB :=
  match lookupBuild db buildPk with
  | none => db
  | some b => reconcile db b now

/-- An operation issued to the Transport capability of the missing
`archives/transports.py`: the six operations of the abstract interface. -/
inductive TransportOp where
  | start : TransportOp
  | finish : TransportOp
  | fetchAndStore (url path username password : String) : TransportOp
  | promoteToCurrent (path : String) : TransportOp
  | linkPaths (source destination : String) : TransportOp
  | generateChecksum (itemId : Nat) : TransportOp
deriving DecidableEq, Repr

/-- Modelled from the spec: the path Policy of the missing
`archives/policies.py` — a flat layout of job, build number and filename
under the archive root, nesting under the owning ProjectBuild's key and
dependency name when a project-scoped context is present. -/
def computePath (db : DB) (a : Archive) (art : Artifact) (b : Build)
    (pbd : Option ProjectBuildDependency) : String :=
  match pbd with
  | none =>
    a.basedir ++ "/" ++ toString b.job ++ "/" ++ toString b.number ++ "/" ++
      art.filename
  | some r =>
    let key :=
      match db.projectBuilds.find? (fun pb => pb.id = r.projectbuild) with
      | some pb => pb.build_key
      | none => ""
    let depname :=
      match db.dependencies.find? (fun d => d.id = r.dependency) with
      | some d => d.name
      | none => ""
    a.basedir ++ "/" ++ key ++ "/" ++ depname ++ "/" ++ art.filename

/-- The ProjectBuildDependency rows referencing a build: one per Project
aggregating this dependency build. -/
def pbdsReferencing (db : DB) (b : Build) : List ProjectBuildDependency :=
  db.projectBuildDependencies.filter (fun r => r.build = some b.id)

/-- The Artifact rows of a build. -/
def artifactsOf (db : DB) (b : Build) : List Artifact :=
  db.artifacts.filter (fun art => art.build = b.id)

/-- The archive entries created by `add_build` for one artifact: the
build-scoped entry first, then one project-scoped entry per
ProjectBuildDependency referencing the build, in creation order.  Entry
primary keys are allocated from `base`. -/
def entriesForArtifact (db : DB) (a : Archive) (b : Build) (art : Artifact)
    (base : Nat) : List ArchiveArtifact :=
  let buildScoped : ArchiveArtifact :=
    { id := base, archive := a.id, build := b.id, artifact := art.id,
      archived_path := computePath db a art b none, archived_size := none,
      archived_at := none, projectbuild_dependency := none }
  buildScoped ::
    (pbdsReferencing db b).enum.map
      (fun p =>
        ({ id := base + 1 + p.1, archive := a.id, build := b.id,
           artifact := art.id,
           archived_path := computePath db a art b (some p.2),
           archived_size := none, archived_at := none,
           projectbuild_dependency := some p.2.id } : ArchiveArtifact))

/-- Modelled from the spec: `Archive.add_build` of the missing
`archives/models.py` — for each Artifact of the build, create one
build-scoped ArchiveArtifact plus one project-scoped entry per
ProjectBuildDependency referencing the build, and return all created
entries keyed by originating artifact in creation order. -/
def add_build (db : DB) (a : Archive) (b : Build) :
    DB × List (Nat × List ArchiveArtifact) :=
  (artifactsOf db b).foldl
    (fun acc art =>
      let entries := entriesForArtifact db a b art acc.1.nextId
      ({ acc.1 with
         archiveArtifacts := acc.1.archiveArtifacts ++ entries,
         nextId := acc.1.nextId + entries.length },
       acc.2 ++ [(art.id, entries)]))
    (db, [])

/-- `ArchiveArtifact.objects.get(pk=...)`. -/
def lookupItem (db : DB) (pk : Nat) : Option ArchiveArtifact :=
  db.archiveArtifacts.find? (fun it => it.id = pk)

/-- `Archive.objects.get(pk=...)`. -/
def lookupArchive (db : DB) (pk : Nat) : Option Archive :=
  db.archives.find? (fun a => a.id = pk)

/-- Modelled from the spec: the promotion condition of `ArchiveOne` in the
missing `archives/tasks.py` — the bound Build is FINALIZED and the item
either has no ProjectBuildDependency or that row's owning ProjectBuild has
reached the terminal FINALIZED phase. -/
def promotionEligible (db : DB) (item : ArchiveArtifact) (b : Build) : Bool :=
  b.phase = "FINALIZED" &&
    match item.projectbuild_dependency with
    | none => true
    | some pbdId =>
      match db.projectBuildDependencies.find? (fun r => r.id = pbdId) with
      | none => false
      | some r =>
        match db.projectBuilds.find? (fun pb => pb.id = r.projectbuild) with
        | none => false
        | some pb => pb.phase = "FINALIZED"

/-- The outcome of an archiving task: the persisted state, the sequence of
transport operations issued, in order, and whether the task succeeded. -/
structure TaskResult where
  db : DB
  log : List TransportOp
  ok : Bool
deriving DecidableEq, Repr

/-- Modelled from the spec: `archive_artifact_from_jenkins` (`ArchiveOne`)
of the missing `archives/tasks.py` — inside a `start`/`end` transport
session, fetch the artifact from its external URL into the item's
`archived_path` with the archive's credentials, record size and timestamp,
then promote to current exactly when `promotionEligible` holds.  `fetch`
is the collaborator's outcome: the byte count on success, nothing on a
fetch failure, in which case the session is still closed and the task
fails. -/
def archive_artifact_from_jenkins (db : DB) (itemId : Nat)
    (now : PyDateTime) (fetch : Option Nat) : TaskResult :=
  match lookupItem db itemId with
  | none => { db := db, log := [], ok := false }
  | some item =>
    match lookupArchive db item.archive, lookupBuild db item.build,
        db.artifacts.find? (fun art => art.id = item.artifact) with
    | some a, some b, some art =>
      let fetchOp := TransportOp.fetchAndStore art.url item.archived_path
        a.username a.password
      match fetch with
      | none =>
        { db := db, log := [TransportOp.start, fetchOp, TransportOp.finish],
          ok := false }
      | some size =>
        let db' :=
          { db with
            archiveArtifacts := db.archiveArtifacts.map
              (fun it =>
                if it.id = itemId then
                  { it with
                    archived_size := some size
                    archived_at := some now }
                else it) }
        let promote :=
          if promotionEligible db item b then
            [TransportOp.promoteToCurrent item.archived_path]
          else []
        { db := db',
          log := [TransportOp.start, fetchOp] ++ promote ++
            [TransportOp.finish],
          ok := true }
    | _, _, _ => { db := db, log := [], ok := false }

/-- Modelled from the spec: `link_artifact_in_archive` (`LinkTwo`) of the
missing `archives/tasks.py` — inside a `start`/`end` session, link the
build-scoped entry's path to the project-scoped entry's path, then apply
the same finalized-promotion check as `ArchiveOne` to the second item. -/
def link_artifact_in_archive (db : DB) (itemAId itemBId : Nat) : TaskResult :=
  match lookupItem db itemAId, lookupItem db itemBId with
  | some itemA, some itemB =>
    match lookupBuild db itemB.build with
    | none => { db := db, log := [], ok := false }
    | some b =>
      let promote :=
        if promotionEligible db itemB b then
          [TransportOp.promoteToCurrent itemB.archived_path]
        else []
      { db := db,
        log := [TransportOp.start,
            TransportOp.linkPaths itemA.archived_path itemB.archived_path] ++
          promote ++ [TransportOp.finish],
        ok := true }
  | _, _ => { db := db, log := [], ok := false }

/-- The default Archive, if one is configured. -/
def defaultArchive (db : DB) : Option Archive :=
  db.archives.find? (fun a => a.isDefault)

/-- The outcome of the checksum task: transport operations, messages sent
to the logging collaborator, and the returned build identifier. -/
structure ChecksumResult where
  log : List TransportOp
  info : List String
  ret : Option Nat
deriving DecidableEq, Repr

/-- Modelled from the spec: `generate_checksums` of the missing
`archives/tasks.py` — resolve the build; with no default Archive, report
through the logging collaborator and return the build identifier without
touching the transport; otherwise issue one checksum generation per
ArchiveArtifact of the build in that archive, inside a `start`/`end`
session, and return the build identifier. -/
def generate_checksums (db : DB) (buildPk : Nat) : ChecksumResult :=
  match lookupBuild db buildPk with
  | none => { log := [], info := [], ret := none }
  | some b =>
    match defaultArchive db with
    | none =>
      { log := [],
        info := ["No default archiver - no checksum to generate"],
        ret := some buildPk }
    | some a =>
      let items := db.archiveArtifacts.filter
        (fun it => it.archive = a.id && it.build = b.id)
      { log := [TransportOp.start] ++
          items.map (fun it => TransportOp.generateChecksum it.id) ++
          [TransportOp.finish],
        info := [],
        ret := some buildPk }

/-- A transport log is session-bracketed when it is empty (no session was
opened) or opens with exactly one `start`, closes with exactly one `end`,
and has no other bracket operation in between. -/
def sessionBracketed (l : List TransportOp) : Bool :=
  match l with
  | [] => true
  | _ =>
    l.head? = some TransportOp.start &&
      l.getLast? = some TransportOp.finish &&
      l.count TransportOp.start = 1 && l.count TransportOp.finish = 1

section ListToolkit

variable {α β : Type}

lemma map_eq_self (l : List α) (f : α → α) (h : ∀ x ∈ l, f x = x) :
    l.map f = l := by
  induction l with
  | nil => rfl
  | cons a t ih =>
    simp only [List.map_cons]
    rw [h a (by simp), ih (fun x hx => h x (by simp [hx]))]

lemma filter_map_comm (l : List α) (f : α → β) (p : β → Bool) :
    (l.map f).filter p = (l.filter (fun x => p (f x))).map f := by
  induction l with
  | nil => rfl
  | cons a t ih =>
    by_cases hp : p (f a) = true
    · simp [List.filter_cons, hp, ih]
    · simp only [Bool.not_eq_true] at hp
      simp [List.filter_cons, hp, ih]

lemma find?_map_comm (l : List α) (f : α → β) (p : β → Bool) :
    (l.map f).find? p = Option.map f (l.find? (fun x => p (f x))) := by
  induction l with
  | nil => rfl
  | cons a t ih =>
    by_cases hp : p (f a) = true
    · simp [List.find?_cons, hp]
    · simp only [Bool.not_eq_true] at hp
      simp [List.find?_cons, hp, ih]

lemma find?_append_cases (l1 l2 : List α) (p : α → Bool) :
    (l1 ++ l2).find? p =
      match l1.find? p with
      | some a => some a
      | none => l2.find? p := by
  induction l1 with
  | nil => rfl
  | cons a t ih =>
    by_cases hp : p a = true
    · simp [List.find?_cons, hp]
    · simp only [Bool.not_eq_true] at hp
      simp [List.find?_cons, hp, ih]

lemma enumFrom_map_snd (g : α → β) (l : List α) :
    ∀ n, ((List.enumFrom n l).map (fun p => g p.2)) = l.map g := by
  induction l with
  | nil => intro n; rfl
  | cons a t ih => intro n; simp [List.enumFrom, ih]

lemma enum_map_snd (g : α → β) (l : List α) :
    (l.enum.map (fun p => g p.2)) = l.map g :=
  enumFrom_map_snd g l 0

end ListToolkit

section FrameLemmas

lemma autoTrackStep_builds (db : DB) (b : Build) :
    (autoTrackStep db b).builds = db.builds := rfl

lemma autoTrackStep_dependencies (db : DB) (b : Build) :
    (autoTrackStep db b).dependencies = db.dependencies := rfl

lemma autoTrackStep_projectBuilds (db : DB) (b : Build) :
    (autoTrackStep db b).projectBuilds = db.projectBuilds := rfl

lemma autoTrackStep_pbds (db : DB) (b : Build) :
    (autoTrackStep db b).projectBuildDependencies =
      db.projectBuildDependencies := rfl

lemma autoTrackStep_nextId (db : DB) (b : Build) :
    (autoTrackStep db b).nextId = db.nextId := rfl

lemma bindStep_builds (db : DB) (b : Build) :
    (bindStep db b).builds = db.builds := rfl

lemma bindStep_dependencies (db : DB) (b : Build) :
    (bindStep db b).dependencies = db.dependencies := rfl

lemma bindStep_projectBuilds (db : DB) (b : Build) :
    (bindStep db b).projectBuilds = db.projectBuilds := rfl

lemma bindStep_pds (db : DB) (b : Build) :
    (bindStep db b).projectDependencies = db.projectDependencies := rfl

lemma bindStep_nextId (db : DB) (b : Build) :
    (bindStep db b).nextId = db.nextId := rfl

lemma finalizeStep_builds (db : DB) (b : Build) (now : PyDateTime) :
    (finalizeStep db b now).builds = db.builds := rfl

lemma finalizeStep_dependencies (db : DB) (b : Build) (now : PyDateTime) :
    (finalizeStep db b now).dependencies = db.dependencies := rfl

lemma finalizeStep_pds (db : DB) (b : Build) (now : PyDateTime) :
    (finalizeStep db b now).projectDependencies = db.projectDependencies := rfl

lemma finalizeStep_pbds (db : DB) (b : Build) (now : PyDateTime) :
    (finalizeStep db b now).projectBuildDependencies =
      db.projectBuildDependencies := rfl

lemma finalizeStep_nextId (db : DB) (b : Build) (now : PyDateTime) :
    (finalizeStep db b now).nextId = db.nextId := rfl

lemma createProjectBuild_builds (db : DB) (p d : Nat) (b : Build)
    (now : PyDateTime) :
    (createProjectBuild db p d b now).builds = db.builds := rfl

lemma createProjectBuild_dependencies (db : DB) (p d : Nat) (b : Build)
    (now : PyDateTime) :
    (createProjectBuild db p d b now).dependencies = db.dependencies := rfl

lemma createProjectBuild_pds (db : DB) (p d : Nat) (b : Build)
    (now : PyDateTime) :
    (createProjectBuild db p d b now).projectDependencies =
      db.projectDependencies := rfl

/-- One fold step of `autoCreateStep`, named so the fold can be reasoned
about uniformly. -/
def autoCreateGo (b : Build) (now : PyDateTime) (acc : DB) (p : Nat × Nat) : DB :=
  if b.phase = "FINALIZED" && !(hasPendingPB acc p.1 p.2) then
    createProjectBuild acc p.2 p.1 b now
  else acc

lemma autoCreateStep_eq_foldl (db : DB) (b : Build) (now : PyDateTime) :
    autoCreateStep db b now = (autoPairs db b).foldl (autoCreateGo b now) db := rfl

lemma autoCreateGo_builds (b : Build) (now : PyDateTime) (acc : DB)
    (p : Nat × Nat) : (autoCreateGo b now acc p).builds = acc.builds := by
  unfold autoCreateGo
  split <;> rfl

lemma autoCreateGo_dependencies (b : Build) (now : PyDateTime) (acc : DB)
    (p : Nat × Nat) :
    (autoCreateGo b now acc p).dependencies = acc.dependencies := by
  unfold autoCreateGo
  split <;> rfl

lemma autoCreateGo_pds (b : Build) (now : PyDateTime) (acc : DB)
    (p : Nat × Nat) :
    (autoCreateGo b now acc p).projectDependencies =
      acc.projectDependencies := by
  unfold autoCreateGo
  split <;> rfl

lemma foldl_autoCreateGo_builds (b : Build) (now : PyDateTime) :
    ∀ (ps : List (Nat × Nat)) (acc : DB),
      ((ps.foldl (autoCreateGo b now) acc)).builds = acc.builds := by
  intro ps
  induction ps with
  | nil => intro acc; rfl
  | cons p t ih =>
    intro acc
    simp only [List.foldl_cons]
    rw [ih, autoCreateGo_builds]

lemma foldl_autoCreateGo_dependencies (b : Build) (now : PyDateTime) :
    ∀ (ps : List (Nat × Nat)) (acc : DB),
      ((ps.foldl (autoCreateGo b now) acc)).dependencies = acc.dependencies := by
  intro ps
  induction ps with
  | nil => intro acc; rfl
  | cons p t ih =>
    intro acc
    simp only [List.foldl_cons]
    rw [ih, autoCreateGo_dependencies]

lemma foldl_autoCreateGo_pds (b : Build) (now : PyDateTime) :
    ∀ (ps : List (Nat × Nat)) (acc : DB),
      ((ps.foldl (autoCreateGo b now) acc)).projectDependencies =
        acc.projectDependencies := by
  intro ps
  induction ps with
  | nil => intro acc; rfl
  | cons p t ih =>
    intro acc
    simp only [List.foldl_cons]
    rw [ih, autoCreateGo_pds]

lemma autoCreateStep_builds (db : DB) (b : Build) (now : PyDateTime) :
    (autoCreateStep db b now).builds = db.builds :=
  foldl_autoCreateGo_builds b now (autoPairs db b) db

lemma autoCreateStep_dependencies (db : DB) (b : Build) (now : PyDateTime) :
    (autoCreateStep db b now).dependencies = db.dependencies :=
  foldl_autoCreateGo_dependencies b now (autoPairs db b) db

lemma autoCreateStep_pds (db : DB) (b : Build) (now : PyDateTime) :
    (autoCreateStep db b now).projectDependencies = db.projectDependencies :=
  foldl_autoCreateGo_pds b now (autoPairs db b) db

lemma reconcile_builds (db : DB) (b : Build) (now : PyDateTime) :
    (reconcile db b now).builds = db.builds := by
  unfold reconcile
  rw [autoCreateStep_builds, finalizeStep_builds, bindStep_builds,
    autoTrackStep_builds]

lemma reconcile_dependencies (db : DB) (b : Build) (now : PyDateTime) :
    (reconcile db b now).dependencies = db.dependencies := by
  unfold reconcile
  rw [autoCreateStep_dependencies, finalizeStep_dependencies,
    bindStep_dependencies, autoTrackStep_dependencies]

end FrameLemmas

section CreateShape

lemma mem_enumFrom_of_mem {α : Type} {x : α} {l : List α} (h : x ∈ l) :
    ∀ n, ∃ i, (i, x) ∈ List.enumFrom n l := by
  induction l with
  | nil => cases h
  | cons a t ih =>
    intro n
    rcases List.mem_cons.mp h with h1 | h2
    · exact ⟨n, by simp [List.enumFrom, h1]⟩
    · rcases ih h2 (n + 1) with ⟨i, hi⟩
      exact ⟨i, by simp [List.enumFrom, Or.inr hi]⟩

lemma mem_enum_of_mem {α : Type} {x : α} {l : List α} (h : x ∈ l) :
    ∃ i, (i, x) ∈ l.enum :=
  mem_enumFrom_of_mem h 0

lemma createProjectBuild_shape (db : DB) (p d : Nat) (b : Build)
    (now : PyDateTime) :
    ∃ pb1 rs,
      (createProjectBuild db p d b now).projectBuilds =
        db.projectBuilds ++ [pb1] ∧
      (createProjectBuild db p d b now).projectBuildDependencies =
        db.projectBuildDependencies ++ rs ∧
      db.nextId ≤ (createProjectBuild db p d b now).nextId ∧
      pb1.id = db.nextId ∧ pb1.status = "INCOMPLETE" ∧ pb1.ended_at = none ∧
      pb1.project = p ∧
      (∀ r ∈ rs, r.projectbuild = db.nextId) ∧
      (∀ pd ∈ db.projectDependencies, pd.project = p →
        ∃ r ∈ rs, r.dependency = pd.dependency) := by
  refine ⟨_, _, rfl, rfl, by simp [createProjectBuild]; omega, rfl, rfl, rfl,
    rfl, ?_, ?_⟩
  · intro r hr
    simp only [List.mem_map] at hr
    rcases hr with ⟨q, _, hq⟩
    rw [← hq]
  · intro pd hpd hproj
    have hmem : pd ∈ db.projectDependencies.filter (fun x => x.project = p) := by
      simp [List.mem_filter, hpd, hproj]
    rcases mem_enum_of_mem hmem with ⟨i, hi⟩
    refine ⟨_, List.mem_map.mpr ⟨(i, pd), hi, rfl⟩, rfl⟩

lemma autoCreate_shape (b : Build) (now : PyDateTime) :
    ∀ (ps : List (Nat × Nat)) (acc : DB),
      ∃ u v,
        (ps.foldl (autoCreateGo b now) acc).projectBuilds =
          acc.projectBuilds ++ u ∧
        (ps.foldl (autoCreateGo b now) acc).projectBuildDependencies =
          acc.projectBuildDependencies ++ v ∧
        acc.nextId ≤ (ps.foldl (autoCreateGo b now) acc).nextId ∧
        (∀ pb ∈ u, pb.status = "INCOMPLETE" ∧ pb.ended_at = none ∧
          acc.nextId ≤ pb.id) ∧
        (∀ r ∈ v, acc.nextId ≤ r.projectbuild) := by
  intro ps
  induction ps with
  | nil =>
    intro acc
    exact ⟨[], [], by simp, by simp, le_refl _, by simp, by simp⟩
  | cons p t ih =>
    intro acc
    rcases ih (autoCreateGo b now acc p) with ⟨u, v, hu, hv, hn, hpu, hpv⟩
    by_cases hc : (b.phase = "FINALIZED" && !(hasPendingPB acc p.1 p.2)) = true
    · have hgo : autoCreateGo b now acc p = createProjectBuild acc p.2 p.1 b now := by
        unfold autoCreateGo
        rw [if_pos hc]
      rcases createProjectBuild_shape acc p.2 p.1 b now with
        ⟨pb1, rs, h1, h2, h3, h4, h5, h6, _, h8, _⟩
      refine ⟨pb1 :: u, rs ++ v, ?_, ?_, ?_, ?_, ?_⟩
      · simp only [List.foldl_cons]
        rw [hu, hgo, h1, List.append_assoc]
        rfl
      · simp only [List.foldl_cons]
        rw [hv, hgo, h2, List.append_assoc]
      · simp only [List.foldl_cons]
        calc acc.nextId ≤ (createProjectBuild acc p.2 p.1 b now).nextId := h3
          _ ≤ _ := by rw [← hgo]; exact hn
      · intro pb hpb
        rcases List.mem_cons.mp hpb with h | h
        · exact ⟨by rw [h]; exact h5, by rw [h]; exact h6, by rw [h, h4]⟩
        · rcases hpu pb h with ⟨ha, hb', hc'⟩
          refine ⟨ha, hb', le_trans ?_ hc'⟩
          rw [hgo] at *
          exact h3
      · intro r hr
        rcases List.mem_append.mp hr with h | h
        · rw [h8 r h]
        · refine le_trans ?_ (hpv r h)
          rw [hgo]
          exact h3
    · have hgo : autoCreateGo b now acc p = acc := by
        unfold autoCreateGo
        rw [if_neg hc]
      rw [hgo] at hu hv hn hpu hpv
      exact ⟨u, v, by simp only [List.foldl_cons]; rw [hgo]; exact hu,
        by simp only [List.foldl_cons]; rw [hgo]; exact hv,
        by simp only [List.foldl_cons]; rw [hgo]; exact hn, hpu, hpv⟩

lemma autoCreateStep_shape (db : DB) (b : Build) (now : PyDateTime) :
    ∃ u v,
      (autoCreateStep db b now).projectBuilds = db.projectBuilds ++ u ∧
      (autoCreateStep db b now).projectBuildDependencies =
        db.projectBuildDependencies ++ v ∧
      db.nextId ≤ (autoCreateStep db b now).nextId ∧
      (∀ pb ∈ u, pb.status = "INCOMPLETE" ∧ pb.ended_at = none ∧
        db.nextId ≤ pb.id) ∧
      (∀ r ∈ v, db.nextId ≤ r.projectbuild) := by
  rw [autoCreateStep_eq_foldl]
  exact autoCreate_shape b now (autoPairs db b) db

end CreateShape

section ClaimC3

/-- Same UTC calendar day: equal year, month and day fields. -/
def sameUTCDay (a b : PyDateTime) : Bool :=
  a.year = b.year && a.month = b.month && a.day = b.day

/-- The window the source code actually filters on: strictly after the day
start (with `now`'s microsecond) and at most 23:59:59 (with `now`'s
microsecond). -/
def inDayWindow (now t : PyDateTime) : Bool :=
  dtLt (now.replaceHMS 0 0 0) t && dtLe t (now.replaceHMS 23 59 59)

/-- The key as the claim words it: the date plus the count of the project's
ProjectBuilds requested within `now`'s calendar day.  Spec-side definition,
for comparison with `generate_projectbuild_id`. -/
def calendar_day_projectbuild_id (db : DB) (projectId : Nat)
    (now : PyDateTime) : String :=
  formatYmd now ++ "." ++
    toString ((db.projectBuilds.filter
      (fun pb => pb.project = projectId &&
        sameUTCDay pb.requested_at now)).length)

lemma window_subset_day (now t : PyDateTime) (h0 : now.microsecond = 0)
    (h1 : dtLt (now.replaceHMS 0 0 0) t = true)
    (h2 : dtLe t (now.replaceHMS 23 59 59) = true) :
    t.year = now.year ∧ t.month = now.month ∧ t.day = now.day := by
  unfold dtLe at h2
  rw [Bool.not_eq_true'] at h2
  unfold dtLt PyDateTime.replaceHMS at h1 h2
  simp only at h1 h2
  split_ifs at h1 h2 <;> simp_all

/-- A ProjectBuild of project 0 requested exactly at midnight of the day. -/
def pbMidnight : ProjectBuild :=
  { id := 7, project := 0, build_key := "x", status := "INCOMPLETE",
    phase := "UNKNOWN",
    requested_at :=
      { year := 2026, month := 1, day := 1, hour := 0, minute := 0,
        second := 0, microsecond := 0 },
    ended_at := none }

/-- A store holding exactly the midnight ProjectBuild. -/
def dbC3 : DB :=
  { builds := [], artifacts := [], dependencies := [],
    projectDependencies := [], projectBuilds := [pbMidnight],
    projectBuildDependencies := [], archives := [], archiveArtifacts := [],
    nextId := 10 }

/-- Noon of the same day. -/
def nowC3 : PyDateTime :=
  { year := 2026, month := 1, day := 1, hour := 12, minute := 0, second := 0,
    microsecond := 0 }

/-- Claim C3 as stated is false: a ProjectBuild requested exactly at
midnight of the day is inside the calendar day, but the code's
strictly-greater-than-day-start filter does not count it, so the generated
key's suffix is 0 where the claim demands 1. -/
theorem claim_C3_counterexample :
    generate_projectbuild_id dbC3 0 nowC3 ≠
      calendar_day_projectbuild_id dbC3 0 nowC3 := by
  decide

/-- Claim C3, amended: the generated key is the YYYYMMDD date, a dot and
the count of the project's ProjectBuilds requested strictly after the day
start and at most 23:59:59 (both bounds carrying `now`'s microsecond);
when `now`'s microsecond is zero, every counted build does lie within
`now`'s calendar day, but a build requested exactly at the day's first
instant is not counted. -/
theorem claim_C3_amended (db : DB) (projectId : Nat) (today : PyDateTime) :
    generate_projectbuild_id db projectId today =
      formatYmd today ++ "." ++
        toString ((db.projectBuilds.filter
          (fun pb => pb.project = projectId &&
            inDayWindow today pb.requested_at)).length) ∧
    (today.microsecond = 0 →
      ∀ pb ∈ db.projectBuilds, pb.project = projectId →
        inDayWindow today pb.requested_at = true →
        sameUTCDay pb.requested_at today = true) := by
  constructor
  · unfold generate_projectbuild_id
    have : ∀ pb : ProjectBuild,
        (pb.project = projectId && dtLt (today.replaceHMS 0 0 0) pb.requested_at &&
          dtLe pb.requested_at (today.replaceHMS 23 59 59)) =
        (pb.project = projectId && inDayWindow today pb.requested_at) := by
      intro pb
      unfold inDayWindow
      rw [Bool.and_assoc]
    simp only [this]
  · intro h0 pb _ _ hw
    unfold inDayWindow at hw
    rw [Bool.and_eq_true] at hw
    rcases window_subset_day today pb.requested_at h0 hw.1 hw.2 with
      ⟨hy, hm, hd⟩
    simp [sameUTCDay, hy, hm, hd]

/-- A ProjectBuild of project 0 requested at one in the afternoon. -/
def pbAfternoon : ProjectBuild :=
  { pbMidnight with
    id := 8
    requested_at :=
      { year := 2026, month := 1, day := 1, hour := 13, minute := 0,
        second := 0, microsecond := 0 } }

/-- A store holding exactly the afternoon ProjectBuild. -/
def dbC3W : DB := { dbC3 with projectBuilds := [pbAfternoon] }

theorem claim_C3_amended_witness :
    sameUTCDay pbAfternoon.requested_at nowC3 = true :=
  (claim_C3_amended dbC3W 0 nowC3).2 (by decide) pbAfternoon (by decide)
    (by decide) (by decide)

end ClaimC3

section ClaimC10

/-- The fold step of `maxByNumber`, named for the proofs. -/
def maxGo (acc : Option Build) (b : Build) : Option Build :=
  match acc with
  | none => some b
  | some m => if m.number < b.number then some b else some m

lemma maxByNumber_eq_foldl (l : List Build) :
    maxByNumber l = l.foldl maxGo none := rfl

lemma foldl_maxGo_some (xs : List Build) :
    ∀ m : Build, ∃ r, xs.foldl maxGo (some m) = some r ∧
      (r = m ∨ r ∈ xs) ∧ m.number ≤ r.number ∧
      ∀ x ∈ xs, x.number ≤ r.number := by
  induction xs with
  | nil =>
    intro m
    exact ⟨m, rfl, Or.inl rfl, le_refl _, by simp⟩
  | cons a t ih =>
    intro m
    by_cases h : m.number < a.number
    · rcases ih a with ⟨r, hr, hmem, hle, hmax⟩
      refine ⟨r, ?_, ?_, le_trans (le_of_lt h) hle, ?_⟩
      · simpa [List.foldl_cons, maxGo, if_pos h] using hr
      · rcases hmem with h1 | h1
        · exact Or.inr (by simp [h1])
        · exact Or.inr (by simp [h1])
      · intro x hx
        rcases List.mem_cons.mp hx with h1 | h1
        · rw [h1]; exact hle
        · exact hmax x h1
    · rcases ih m with ⟨r, hr, hmem, hle, hmax⟩
      refine ⟨r, ?_, ?_, hle, ?_⟩
      · simpa [List.foldl_cons, maxGo, if_neg h] using hr
      · rcases hmem with h1 | h1
        · exact Or.inl h1
        · exact Or.inr (by simp [h1])
      · intro x hx
        rcases List.mem_cons.mp hx with h1 | h1
        · rw [h1]
          exact le_trans (not_lt.mp h) hle
        · exact hmax x h1

lemma maxByNumber_spec (l : List Build) (hne : l ≠ []) :
    ∃ r, maxByNumber l = some r ∧ r ∈ l ∧ ∀ x ∈ l, x.number ≤ r.number := by
  cases l with
  | nil => exact absurd rfl hne
  | cons a t =>
    rcases foldl_maxGo_some t a with ⟨r, hr, hmem, hle, hmax⟩
    refine ⟨r, ?_, ?_, ?_⟩
    · rw [maxByNumber_eq_foldl]
      simpa [List.foldl_cons, maxGo] using hr
    · rcases hmem with h1 | h1
      · simp [h1]
      · simp [h1]
    · intro x hx
      rcases List.mem_cons.mp hx with h1 | h1
      · rw [h1]; exact hle
      · exact hmax x h1

/-- Claim C10: `get_current_build` returns nothing when the dependency has
no job or the job has no build with the literal phase FINISHED; otherwise
it returns a FINISHED build of the job with the largest number.  Builds
stored with phase FINALIZED, the value `translate_build_phase` produces
from a Jenkins FINISHED notification, never qualify. -/
theorem claim_C10 (db : DB) (d : Dependency) :
    (d.job = none → get_current_build db d = none) ∧
    (∀ j, d.job = some j →
      ((∀ x ∈ db.builds, ¬(x.job = j ∧ x.phase = "FINISHED")) →
        get_current_build db d = none) ∧
      (∀ b, get_current_build db d = some b →
        b ∈ db.builds ∧ b.job = j ∧ b.phase = "FINISHED" ∧
        ∀ x ∈ db.builds, x.job = j → x.phase = "FINISHED" →
          x.number ≤ b.number) ∧
      (∀ x ∈ db.builds, x.job = j → x.phase = "FINISHED" →
        ∃ b, get_current_build db d = some b)) ∧
    translate_build_phase "FINISHED" = "FINALIZED" ∧
    (∀ b : Build, b.phase = "FINALIZED" → get_current_build db d ≠ some b) := by
  have hchar : ∀ j, d.job = some j → ∀ b, get_current_build db d = some b →
      b ∈ db.builds ∧ b.job = j ∧ b.phase = "FINISHED" ∧
      ∀ x ∈ db.builds, x.job = j → x.phase = "FINISHED" →
        x.number ≤ b.number := by
    intro j hj b hb
    unfold get_current_build at hb
    rw [hj] at hb
    simp only at hb
    split_ifs at hb with hlen
    · have hne : db.builds.filter (fun x => x.job = j && x.phase = "FINISHED") ≠ [] := by
        intro h
        rw [h] at hlen
        simp at hlen
      rcases maxByNumber_spec _ hne with ⟨r, hr, hrmem, hrmax⟩
      rw [hr] at hb
      cases hb
      rcases List.mem_filter.mp hrmem with ⟨hmem, hpred⟩
      rw [Bool.and_eq_true] at hpred
      refine ⟨hmem, by simpa using hpred.1, by simpa using hpred.2, ?_⟩
      intro x hx hxj hxp
      exact hrmax x (List.mem_filter.mpr ⟨hx, by simp [hxj, hxp]⟩)
  refine ⟨?_, ?_, rfl, ?_⟩
  · intro h
    unfold get_current_build
    rw [h]
  · intro j hj
    refine ⟨?_, hchar j hj, ?_⟩
    · intro hno
      unfold get_current_build
      rw [hj]
      simp only
      have : db.builds.filter (fun x => x.job = j && x.phase = "FINISHED") = [] := by
        rw [List.filter_eq_nil_iff]
        intro x hx
        intro hcontra
        rw [Bool.and_eq_true] at hcontra
        exact hno x hx ⟨by simpa using hcontra.1, by simpa using hcontra.2⟩
      rw [this]
      simp
    · intro x hx hxj hxp
      unfold get_current_build
      rw [hj]
      simp only
      have hmem : x ∈ db.builds.filter (fun y => y.job = j && y.phase = "FINISHED") :=
        List.mem_filter.mpr ⟨hx, by simp [hxj, hxp]⟩
      have hne : db.builds.filter (fun y => y.job = j && y.phase = "FINISHED") ≠ [] := by
        intro h
        rw [h] at hmem
        cases hmem
      have hlen : 0 < (db.builds.filter (fun y => y.job = j && y.phase = "FINISHED")).length :=
        List.length_pos.mpr hne
      rcases maxByNumber_spec _ hne with ⟨r, hr, _, _⟩
      rw [if_pos hlen, hr]
      exact ⟨r, rfl⟩
  · intro b hb hcontra
    cases hd : d.job with
    | none =>
      unfold get_current_build at hcontra
      rw [hd] at hcontra
      cases hcontra
    | some j =>
      rcases hchar j hd b hcontra with ⟨_, _, hp, _⟩
      rw [hb] at hp
      exact absurd hp (by decide)

/-- A FINISHED build of job 5 with a smaller sibling, for the witness. -/
def bFinished : Build :=
  { id := 3, job := 5, build_id := "a", number := 9, phase := "FINISHED",
    status := "SUCCESS" }

/-- A store with two FINISHED builds and one FINALIZED build of job 5. -/
def dbC10 : DB :=
  { builds :=
      [{ id := 1, job := 5, build_id := "b", number := 4,
         phase := "FINISHED", status := "SUCCESS" },
       bFinished,
       { id := 4, job := 5, build_id := "c", number := 11,
         phase := "FINALIZED", status := "SUCCESS" }],
    artifacts := [], dependencies := [], projectDependencies := [],
    projectBuilds := [], projectBuildDependencies := [], archives := [],
    archiveArtifacts := [], nextId := 20 }

/-- The dependency bound to job 5. -/
def depC10 : Dependency := { id := 6, name := "dep", job := some 5 }

theorem claim_C10_witness :
    bFinished ∈ dbC10.builds ∧ bFinished.job = 5 ∧
      bFinished.phase = "FINISHED" ∧
      ∀ x ∈ dbC10.builds, x.job = 5 → x.phase = "FINISHED" →
        x.number ≤ bFinished.number :=
  ((claim_C10 dbC10 depC10).2.1 5 (by decide)).2.1 bFinished (by decide)

end ClaimC10

section ClaimC5

/-- Claim C5: reconciling a FINALIZED build of a job sets `current_build`
to that build on every auto-tracked ProjectDependency referencing a
Dependency bound to the job, and leaves every ProjectDependency with
`auto_track = false` entirely unchanged. -/
theorem claim_C5 (db : DB) (b : Build) (pd : ProjectDependency)
    (hmem : pd ∈ db.projectDependencies) (hph : b.phase = "FINALIZED") :
    (pd.auto_track = true → dependsOnJob db pd b = true →
      { pd with current_build := some b.id } ∈
        (handle_new_build db b).projectDependencies) ∧
    (pd.auto_track = false →
      pd ∈ (handle_new_build db b).projectDependencies) := by
  constructor
  · intro hat hdep
    unfold handle_new_build
    refine List.mem_map.mpr ⟨pd, hmem, ?_⟩
    rw [hdep, hat]
    simp
  · intro hat
    unfold handle_new_build
    refine List.mem_map.mpr ⟨pd, hmem, ?_⟩
    rw [hat]
    simp

/-- A FINALIZED build of job 5, for witnesses. -/
def bC5 : Build :=
  { id := 3, job := 5, build_id := "bid", number := 1, phase := "FINALIZED",
    status := "SUCCESS" }

/-- An auto-tracked ProjectDependency on the dependency of job 5. -/
def pdAuto : ProjectDependency :=
  { id := 2, dependency := 1, project := 0, auto_track := true,
    current_build := none }

/-- A non-auto-tracked ProjectDependency on the same dependency. -/
def pdManual : ProjectDependency :=
  { id := 9, dependency := 1, project := 4, auto_track := false,
    current_build := some 8 }

/-- A store with one dependency on job 5 and the two ProjectDependencies. -/
def dbC5 : DB :=
  { builds := [bC5], artifacts := [],
    dependencies := [{ id := 1, name := "dep", job := some 5 }],
    projectDependencies := [pdAuto, pdManual], projectBuilds := [],
    projectBuildDependencies := [], archives := [], archiveArtifacts := [],
    nextId := 20 }

theorem claim_C5_witness :
    { pdAuto with current_build := some bC5.id } ∈
        (handle_new_build dbC5 bC5).projectDependencies ∧
      pdManual ∈ (handle_new_build dbC5 bC5).projectDependencies :=
  ⟨(claim_C5 dbC5 bC5 pdAuto (by decide) (by decide)).1 (by decide)
      (by decide),
    (claim_C5 dbC5 bC5 pdManual (by decide) (by decide)).2 (by decide)⟩

end ClaimC5

section ClaimC2

lemma promotionEligible_iff (db : DB) (item : ArchiveArtifact) (b : Build) :
    promotionEligible db item b = true ↔
      (b.phase = "FINALIZED" ∧
        (item.projectbuild_dependency = none ∨
          ∃ pbdId r pb, item.projectbuild_dependency = some pbdId ∧
            db.projectBuildDependencies.find? (fun x => x.id = pbdId) =
              some r ∧
            db.projectBuilds.find? (fun x => x.id = r.projectbuild) =
              some pb ∧
            pb.phase = "FINALIZED")) := by
  unfold promotionEligible
  cases hpbd : item.projectbuild_dependency with
  | none => simp
  | some pbdId =>
    cases hr : db.projectBuildDependencies.find? (fun x => x.id = pbdId) with
    | none => simp [hr]
    | some r =>
      cases hpb : db.projectBuilds.find? (fun x => x.id = r.projectbuild) with
      | none => simp [hr, hpb]
      | some pb => simp [hr, hpb]

/-- Claim C2: for an item whose fetch succeeds, `ArchiveOne` instructs the
transport to promote `archived_path` to current exactly when the bound
Build is FINALIZED and the item either has no ProjectBuildDependency or
that row's owning ProjectBuild has reached the terminal FINALIZED phase;
in particular a project-scoped item of a non-terminal ProjectBuild is never
promoted, while the fetch operation itself is still issued. -/
theorem claim_C2 (db : DB) (itemId : Nat) (now : PyDateTime) (size : Nat)
    (item : ArchiveArtifact) (a : Archive) (b : Build) (art : Artifact)
    (hitem : lookupItem db itemId = some item)
    (ha : lookupArchive db item.archive = some a)
    (hb : lookupBuild db item.build = some b)
    (hart : db.artifacts.find? (fun x => x.id = item.artifact) = some art) :
    (TransportOp.promoteToCurrent item.archived_path ∈
        (archive_artifact_from_jenkins db itemId now (some size)).log ↔
      (b.phase = "FINALIZED" ∧
        (item.projectbuild_dependency = none ∨
          ∃ pbdId r pb, item.projectbuild_dependency = some pbdId ∧
            db.projectBuildDependencies.find? (fun x => x.id = pbdId) =
              some r ∧
            db.projectBuilds.find? (fun x => x.id = r.projectbuild) =
              some pb ∧
            pb.phase = "FINALIZED"))) ∧
    TransportOp.fetchAndStore art.url item.archived_path a.username
        a.password ∈
      (archive_artifact_from_jenkins db itemId now (some size)).log ∧
    (∀ pbdId r pb, item.projectbuild_dependency = some pbdId →
      db.projectBuildDependencies.find? (fun x => x.id = pbdId) = some r →
      db.projectBuilds.find? (fun x => x.id = r.projectbuild) = some pb →
      pb.phase ≠ "FINALIZED" →
      TransportOp.promoteToCurrent item.archived_path ∉
        (archive_artifact_from_jenkins db itemId now (some size)).log) := by
  have hlog : (archive_artifact_from_jenkins db itemId now (some size)).log =
      [TransportOp.start,
        TransportOp.fetchAndStore art.url item.archived_path a.username
          a.password] ++
        (if promotionEligible db item b then
          [TransportOp.promoteToCurrent item.archived_path]
        else []) ++ [TransportOp.finish] := by
    unfold archive_artifact_from_jenkins
    rw [hitem]
    simp only
    rw [ha, hb, hart]
  have hiff := promotionEligible_iff db item b
  refine ⟨?_, ?_, ?_⟩
  · rw [hlog]
    by_cases hpe : promotionEligible db item b = true
    · rw [if_pos hpe]
      constructor
      · intro _
        exact hiff.mp hpe
      · intro _
        simp
    · rw [if_neg hpe]
      constructor
      · intro hmem
        simp at hmem
      · intro hrhs
        exact absurd (hiff.mpr hrhs) hpe
  · rw [hlog]
    by_cases hpe : promotionEligible db item b = true
    · rw [if_pos hpe]; simp
    · rw [if_neg hpe]; simp
  · intro pbdId r pb hpbd hr hpb hph
    rw [hlog]
    have hpe : promotionEligible db item b ≠ true := by
      intro hcontra
      rcases hiff.mp hcontra with ⟨_, hcase⟩
      rcases hcase with hnone | ⟨p', r', pb', hp', hr', hpb', hph'⟩
      · rw [hpbd] at hnone
        cases hnone
      · rw [hpbd] at hp'
        cases hp'
        rw [hr] at hr'
        cases hr'
        rw [hpb] at hpb'
        cases hpb'
        exact hph hph'
    rw [if_neg hpe]
    simp

/-- A concrete store for the C2 witness: one artifact archived twice, the
project-scoped copy owned by a still-incomplete ProjectBuild. -/
def nowC2 : PyDateTime :=
  { year := 2026, month := 2, day := 3, hour := 4, minute := 5, second := 6,
    microsecond := 0 }

def bC2 : Build :=
  { id := 30, job := 5, build_id := "K", number := 7, phase := "FINALIZED",
    status := "SUCCESS" }

def arcC2 : Archive :=
  { id := 40, basedir := "/srv", policy := "cdimage", username := "root",
    password := "testing", isDefault := true }

def artC2 : Artifact :=
  { id := 60, build := 30, filename := "testing/testing.txt",
    url := "http://example.com/a" }

def itemC2 : ArchiveArtifact :=
  { id := 71, archive := 40, build := 30, artifact := 60,
    archived_path := "/srv/K/d1/testing.txt", archived_size := none,
    archived_at := none, projectbuild_dependency := some 21 }

def dbC2 : DB :=
  { builds := [bC2], artifacts := [artC2],
    dependencies := [{ id := 1, name := "d1", job := some 5 }],
    projectDependencies :=
      [{ id := 3, dependency := 1, project := 0, auto_track := true,
         current_build := none }],
    projectBuilds :=
      [{ id := 20, project := 0, build_key := "K", status := "INCOMPLETE",
         phase := "UNKNOWN", requested_at := nowC2, ended_at := none }],
    projectBuildDependencies :=
      [{ id := 21, projectbuild := 20, dependency := 1, build := some 30 }],
    archives := [arcC2], archiveArtifacts := [itemC2], nextId := 90 }

theorem claim_C2_witness :
    TransportOp.promoteToCurrent itemC2.archived_path ∉
        (archive_artifact_from_jenkins dbC2 71 nowC2 (some 21)).log ∧
      TransportOp.fetchAndStore artC2.url itemC2.archived_path arcC2.username
          arcC2.password ∈
        (archive_artifact_from_jenkins dbC2 71 nowC2 (some 21)).log := by
  have h := claim_C2 dbC2 71 nowC2 21 itemC2 arcC2 bC2 artC2 (by decide)
    (by decide) (by decide) (by decide)
  exact ⟨h.2.2 21
      { id := 21, projectbuild := 20, dependency := 1, build := some 30 }
      { id := 20, project := 0, build_key := "K", status := "INCOMPLETE",
        phase := "UNKNOWN", requested_at := nowC2, ended_at := none }
      (by decide) (by decide) (by decide) (by decide),
    h.2.1⟩

end ClaimC2

section ClaimC8

/-- Claim C8: `generate_checksums` with no default Archive reports through
the logging collaborator, performs zero transport operations and still
returns the build identifier; with a default Archive it issues one
checksum generation per ArchiveArtifact of the build in that archive,
inside a session that opens with `start` and closes with `end`. -/
theorem claim_C8 (db : DB) (buildPk : Nat) (b : Build)
    (hb : lookupBuild db buildPk = some b) :
    (defaultArchive db = none →
      (generate_checksums db buildPk).log = [] ∧
      (generate_checksums db buildPk).info =
        ["No default archiver - no checksum to generate"] ∧
      (generate_checksums db buildPk).ret = some buildPk) ∧
    (∀ a, defaultArchive db = some a →
      (∀ it ∈ db.archiveArtifacts, it.archive = a.id → it.build = b.id →
        TransportOp.generateChecksum it.id ∈
          (generate_checksums db buildPk).log) ∧
      (generate_checksums db buildPk).log.head? = some TransportOp.start ∧
      (generate_checksums db buildPk).log.getLast? =
        some TransportOp.finish ∧
      (generate_checksums db buildPk).ret = some buildPk) := by
  constructor
  · intro hnone
    unfold generate_checksums
    rw [hb]
    simp only
    rw [hnone]
    exact ⟨rfl, rfl, rfl⟩
  · intro a hsome
    have hgc : generate_checksums db buildPk =
        { log := [TransportOp.start] ++
            (db.archiveArtifacts.filter
              (fun it => it.archive = a.id && it.build = b.id)).map
              (fun it => TransportOp.generateChecksum it.id) ++
            [TransportOp.finish],
          info := [], ret := some buildPk } := by
      unfold generate_checksums
      rw [hb]
      simp only
      rw [hsome]
    refine ⟨?_, ?_, ?_, ?_⟩
    · intro it hit ha hbld
      rw [hgc]
      simp only [List.mem_append, List.mem_map]
      refine Or.inl (Or.inr ⟨it, List.mem_filter.mpr ⟨hit, ?_⟩, rfl⟩)
      simp [ha, hbld]
    · rw [hgc]
      rfl
    · rw [hgc]
      simp only [← List.append_assoc]
      exact List.getLast?_concat _
    · rw [hgc]

def bC8 : Build :=
  { id := 30, job := 5, build_id := "K", number := 7, phase := "FINALIZED",
    status := "SUCCESS" }

def itemC8 : ArchiveArtifact :=
  { id := 71, archive := 40, build := 30, artifact := 60,
    archived_path := "/srv/x", archived_size := none, archived_at := none,
    projectbuild_dependency := none }

def dbC8 : DB :=
  { builds := [bC8], artifacts := [], dependencies := [],
    projectDependencies := [], projectBuilds := [],
    projectBuildDependencies := [],
    archives :=
      [{ id := 40, basedir := "/srv", policy := "cdimage",
         username := "root", password := "testing", isDefault := true }],
    archiveArtifacts := [itemC8], nextId := 90 }

def dbC8none : DB := { dbC8 with archives := [] }

theorem claim_C8_witness :
    ((generate_checksums dbC8none 30).log = [] ∧
      (generate_checksums dbC8none 30).info =
        ["No default archiver - no checksum to generate"] ∧
      (generate_checksums dbC8none 30).ret = some 30) ∧
    TransportOp.generateChecksum 71 ∈ (generate_checksums dbC8 30).log := by
  constructor
  · exact (claim_C8 dbC8none 30 bC8 (by decide)).1 (by decide)
  · exact ((claim_C8 dbC8 30 bC8 (by decide)).2
        { id := 40, basedir := "/srv", policy := "cdimage",
          username := "root", password := "testing", isDefault := true }
        (by decide)).1 itemC8 (by decide) (by decide) (by decide)

end ClaimC8

section ClaimC9

lemma sessionBracketed_shape (mid : List TransportOp)
    (h1 : TransportOp.start ∉ mid) (h2 : TransportOp.finish ∉ mid) :
    sessionBracketed
      ([TransportOp.start] ++ mid ++ [TransportOp.finish]) = true := by
  have hcons : [TransportOp.start] ++ mid ++ [TransportOp.finish] =
      TransportOp.start :: (mid ++ [TransportOp.finish]) := by simp
  unfold sessionBracketed
  rw [hcons]
  simp only [List.head?_cons, List.count_cons, List.count_append]
  have hs : mid.count TransportOp.start = 0 := List.count_eq_zero.mpr h1
  have hf : mid.count TransportOp.finish = 0 := List.count_eq_zero.mpr h2
  have hlast : (TransportOp.start :: (mid ++ [TransportOp.finish])).getLast? =
      some TransportOp.finish := by
    rw [← List.cons_append, List.getLast?_concat]
  simp [hlast, hs, hf]

lemma sessionBracketed_nil : sessionBracketed [] = true := rfl

lemma archiveOne_bracketed (db : DB) (itemId : Nat) (now : PyDateTime)
    (fetch : Option Nat) :
    sessionBracketed (archive_artifact_from_jenkins db itemId now fetch).log =
      true := by
  unfold archive_artifact_from_jenkins
  cases hitem : lookupItem db itemId with
  | none => exact sessionBracketed_nil
  | some item =>
    simp only
    cases ha : lookupArchive db item.archive with
    | none =>
      cases hb : lookupBuild db item.build <;>
        cases hart : db.artifacts.find? (fun x => x.id = item.artifact) <;>
        exact sessionBracketed_nil
    | some a =>
      cases hb : lookupBuild db item.build with
      | none =>
        cases hart : db.artifacts.find? (fun x => x.id = item.artifact) <;>
          exact sessionBracketed_nil
      | some b =>
        cases hart : db.artifacts.find? (fun x => x.id = item.artifact) with
        | none => exact sessionBracketed_nil
        | some art =>
          simp only
          cases fetch with
          | none =>
            exact sessionBracketed_shape [TransportOp.fetchAndStore art.url
              item.archived_path a.username a.password] (by simp) (by simp)
          | some size =>
            simp only
            by_cases hpe : promotionEligible db item b = true
            · rw [if_pos hpe]
              exact sessionBracketed_shape
                [TransportOp.fetchAndStore art.url item.archived_path
                    a.username a.password,
                  TransportOp.promoteToCurrent item.archived_path]
                (by simp) (by simp)
            · rw [if_neg hpe]
              exact sessionBracketed_shape
                [TransportOp.fetchAndStore art.url item.archived_path
                  a.username a.password] (by simp) (by simp)

lemma linkTwo_bracketed (db : DB) (i1 i2 : Nat) :
    sessionBracketed (link_artifact_in_archive db i1 i2).log = true := by
  unfold link_artifact_in_archive
  cases h1 : lookupItem db i1 with
  | none => exact sessionBracketed_nil
  | some itemA =>
    cases h2 : lookupItem db i2 with
    | none => exact sessionBracketed_nil
    | some itemB =>
      simp only
      cases hb : lookupBuild db itemB.build with
      | none => exact sessionBracketed_nil
      | some b =>
        simp only
        by_cases hpe : promotionEligible db itemB b = true
        · rw [if_pos hpe]
          exact sessionBracketed_shape
            [TransportOp.linkPaths itemA.archived_path itemB.archived_path,
              TransportOp.promoteToCurrent itemB.archived_path]
            (by simp) (by simp)
        · rw [if_neg hpe]
          exact sessionBracketed_shape
            [TransportOp.linkPaths itemA.archived_path itemB.archived_path]
            (by simp) (by simp)

lemma generateChecksums_bracketed (db : DB) (pk : Nat) :
    sessionBracketed (generate_checksums db pk).log = true := by
  unfold generate_checksums
  cases hb : lookupBuild db pk with
  | none => exact sessionBracketed_nil
  | some b =>
    simp only
    cases ha : defaultArchive db with
    | none => exact sessionBracketed_nil
    | some a =>
      refine sessionBracketed_shape _ ?_ ?_ <;>
        · intro hmem
          rcases List.mem_map.mp hmem with ⟨x, _, hx⟩
          cases hx

/-- Claim C9: every transport operation sequence issued by an archiving
task is session-bracketed — empty when the task never engages the
transport, otherwise opened by exactly one `start` and closed by exactly
one `end` with no other bracket operation in between — and the session is
still closed, with the task reporting failure, when the fetch inside it
fails. -/
theorem claim_C9 :
    (∀ (db : DB) (itemId : Nat) (now : PyDateTime) (fetch : Option Nat),
      sessionBracketed
        (archive_artifact_from_jenkins db itemId now fetch).log = true) ∧
    (∀ (db : DB) (i1 i2 : Nat),
      sessionBracketed (link_artifact_in_archive db i1 i2).log = true) ∧
    (∀ (db : DB) (pk : Nat),
      sessionBracketed (generate_checksums db pk).log = true) ∧
    (∀ (db : DB) (itemId : Nat) (now : PyDateTime) (item : ArchiveArtifact),
      lookupItem db itemId = some item →
      ∀ a, lookupArchive db item.archive = some a →
      ∀ b, lookupBuild db item.build = some b →
      ∀ art, db.artifacts.find? (fun x => x.id = item.artifact) = some art →
      (archive_artifact_from_jenkins db itemId now none).log.getLast? =
          some TransportOp.finish ∧
        (archive_artifact_from_jenkins db itemId now none).ok = false) := by
  refine ⟨archiveOne_bracketed, linkTwo_bracketed, generateChecksums_bracketed,
    ?_⟩
  intro db itemId now item hitem a ha b hb art hart
  have hres : archive_artifact_from_jenkins db itemId now none =
      { db := db,
        log := [TransportOp.start,
          TransportOp.fetchAndStore art.url item.archived_path a.username
            a.password, TransportOp.finish],
        ok := false } := by
    unfold archive_artifact_from_jenkins
    rw [hitem]
    simp only
    rw [ha, hb, hart]
  rw [hres]
  exact ⟨rfl, rfl⟩

theorem claim_C9_witness :
    (archive_artifact_from_jenkins dbC2 71 nowC2 none).log.getLast? =
        some TransportOp.finish ∧
      (archive_artifact_from_jenkins dbC2 71 nowC2 none).ok = false :=
  claim_C9.2.2.2 dbC2 71 nowC2 itemC2 (by decide) arcC2 (by decide) bC2
    (by decide) artC2 (by decide)

end ClaimC9

section ClaimC4

/-- The fold step of `add_build`, named for the proofs. -/
def addBuildGo (db : DB) (a : Archive) (b : Build)
    (acc : DB × List (Nat × List ArchiveArtifact)) (art : Artifact) :
    DB × List (Nat × List ArchiveArtifact) :=
  let entries := entriesForArtifact db a b art acc.1.nextId
  ({ acc.1 with
     archiveArtifacts := acc.1.archiveArtifacts ++ entries,
     nextId := acc.1.nextId + entries.length },
   acc.2 ++ [(art.id, entries)])

lemma add_build_eq_foldl (db : DB) (a : Archive) (b : Build) :
    add_build db a b =
      (artifactsOf db b).foldl (addBuildGo db a b) (db, []) := rfl

lemma entriesForArtifact_pbds (db : DB) (a : Archive) (b : Build)
    (art : Artifact) (base : Nat) :
    (entriesForArtifact db a b art base).map
        (fun e => e.projectbuild_dependency) =
      none :: (pbdsReferencing db b).map (fun r => some r.id) := by
  unfold entriesForArtifact
  simp only [List.map_cons, List.map_map]
  congr 1
  exact enum_map_snd (fun r => some r.id) (pbdsReferencing db b)

lemma entriesForArtifact_length (db : DB) (a : Archive) (b : Build)
    (art : Artifact) (base : Nat) :
    (entriesForArtifact db a b art base).length =
      1 + (pbdsReferencing db b).length := by
  simp [entriesForArtifact]
  omega

lemma add_build_fold (db : DB) (a : Archive) (b : Build) :
    ∀ (arts : List Artifact) (acc : DB × List (Nat × List ArchiveArtifact)),
      ((arts.foldl (addBuildGo db a b) acc).2.map Prod.fst =
        acc.2.map Prod.fst ++ arts.map (fun art => art.id)) ∧
      (∀ p ∈ (arts.foldl (addBuildGo db a b) acc).2, p ∈ acc.2 ∨
        p.2.map (fun e => e.projectbuild_dependency) =
          none :: (pbdsReferencing db b).map (fun r => some r.id)) ∧
      (arts.foldl (addBuildGo db a b) acc).1.archiveArtifacts.length =
        acc.1.archiveArtifacts.length +
          arts.length * (1 + (pbdsReferencing db b).length) := by
  intro arts
  induction arts with
  | nil =>
    intro acc
    exact ⟨by simp, fun p hp => Or.inl hp, by simp⟩
  | cons art t ih =>
    intro acc
    have hstep := ih (addBuildGo db a b acc art)
    refine ⟨?_, ?_, ?_⟩
    · rw [List.foldl_cons, hstep.1]
      simp [addBuildGo]
    · intro p hp
      rw [List.foldl_cons] at hp
      rcases hstep.2.1 p hp with h | h
      · rcases List.mem_append.mp h with h1 | h1
        · exact Or.inl h1
        · right
          have hp2 : p = (art.id, entriesForArtifact db a b art acc.1.nextId) := by
            simpa [addBuildGo] using h1
          rw [hp2]
          exact entriesForArtifact_pbds db a b art acc.1.nextId
      · exact Or.inr h
    · rw [List.foldl_cons, hstep.2.2]
      simp only [addBuildGo, List.length_append, List.length_cons,
        entriesForArtifact_length]
      ring

/-- Claim C4: `add_build` returns one mapping entry per artifact of the
build, keyed by the artifact in creation order; each artifact's list is
exactly one build-scoped entry followed by one project-scoped entry per
ProjectBuildDependency referencing the build (so none when the build is
part of no ProjectBuild); and the store grows by exactly N times
(1 + M) entries. -/
theorem claim_C4 (db : DB) (a : Archive) (b : Build) :
    ((add_build db a b).2.map Prod.fst =
      (artifactsOf db b).map (fun art => art.id)) ∧
    (∀ p ∈ (add_build db a b).2,
      p.2.map (fun e => e.projectbuild_dependency) =
        none :: (pbdsReferencing db b).map (fun r => some r.id)) ∧
    ((add_build db a b).1.archiveArtifacts.length =
      db.archiveArtifacts.length +
        (artifactsOf db b).length * (1 + (pbdsReferencing db b).length)) := by
  have h := add_build_fold db a b (artifactsOf db b) (db, [])
  rw [add_build_eq_foldl]
  refine ⟨by simpa using h.1, ?_, by simpa using h.2.2⟩
  intro p hp
  rcases h.2.1 p hp with h1 | h1
  · cases h1
  · exact h1

def bC4 : Build :=
  { id := 30, job := 5, build_id := "K", number := 7, phase := "FINALIZED",
    status := "SUCCESS" }

def arcC4 : Archive :=
  { id := 40, basedir := "/srv", policy := "cdimage", username := "root",
    password := "testing", isDefault := true }

def artC4 : Artifact :=
  { id := 60, build := 30, filename := "t.txt",
    url := "http://example.com/a" }

def dbC4 : DB :=
  { builds := [bC4], artifacts := [artC4],
    dependencies := [{ id := 1, name := "d1", job := some 5 }],
    projectDependencies := [],
    projectBuilds :=
      [{ id := 20, project := 0, build_key := "K", status := "INCOMPLETE",
         phase := "UNKNOWN", requested_at := nowC2, ended_at := none }],
    projectBuildDependencies :=
      [{ id := 21, projectbuild := 20, dependency := 1, build := some 30 }],
    archives := [arcC4], archiveArtifacts := [], nextId := 90 }

theorem claim_C4_witness :
    (60, entriesForArtifact dbC4 arcC4 bC4 artC4 90).2.map
        (fun e => e.projectbuild_dependency) =
      none :: (pbdsReferencing dbC4 bC4).map (fun r => some r.id) :=
  (claim_C4 dbC4 arcC4 bC4).2.1
    (60, entriesForArtifact dbC4 arcC4 bC4 artC4 90) (by decide)

end ClaimC4

section ClaimC7

/-- The per-row function of `finalizeStep`, named for the proofs. -/
def finalizeGo (d : DB) (b : Build) (now : PyDateTime) (pb : ProjectBuild) :
    ProjectBuild :=
  if (touchedIds d b).contains pb.id && pb.status = "INCOMPLETE" &&
      allRowsFinalized d pb.id then
    { pb with
      status := if allRowsSuccessful d pb.id then "SUCCESS" else "FAILURE",
      phase := "FINALIZED",
      ended_at := some now }
  else pb

lemma finalizeStep_eq_map (d : DB) (b : Build) (now : PyDateTime) :
    (finalizeStep d b now).projectBuilds =
      d.projectBuilds.map (finalizeGo d b now) := rfl

lemma finalizeGo_id (d : DB) (b : Build) (now : PyDateTime)
    (q : ProjectBuild) : (finalizeGo d b now q).id = q.id := by
  unfold finalizeGo
  split <;> rfl

lemma finalizeGo_key (d : DB) (b : Build) (now : PyDateTime)
    (q : ProjectBuild) : (finalizeGo d b now q).build_key = q.build_key := by
  unfold finalizeGo
  split <;> rfl

lemma finalizeGo_cases (d : DB) (b : Build) (now : PyDateTime)
    (q : ProjectBuild) :
    finalizeGo d b now q = q ∨
      (q.status = "INCOMPLETE" ∧
        (finalizeGo d b now q).status ≠ "INCOMPLETE" ∧
        (finalizeGo d b now q).phase = "FINALIZED" ∧
        (finalizeGo d b now q).ended_at = some now) := by
  by_cases h : ((touchedIds d b).contains q.id && q.status = "INCOMPLETE" &&
      allRowsFinalized d q.id) = true
  · right
    have hq : q.status = "INCOMPLETE" := by
      rw [Bool.and_eq_true, Bool.and_eq_true] at h
      simpa using h.1.2
    unfold finalizeGo
    rw [if_pos h]
    refine ⟨hq, ?_, rfl, rfl⟩
    simp only
    split <;> decide
  · left
    unfold finalizeGo
    rw [if_neg h]

lemma finalizeGo_frozen (d : DB) (b : Build) (now : PyDateTime)
    (q : ProjectBuild) (h : q.status ≠ "INCOMPLETE") :
    finalizeGo d b now q = q := by
  unfold finalizeGo
  rw [if_neg]
  intro hc
  rw [Bool.and_eq_true, Bool.and_eq_true] at hc
  exact h (by simpa using hc.1.2)

lemma reconcile_projectBuilds_decomp (db : DB) (b : Build)
    (now : PyDateTime) :
    ∃ u,
      (reconcile db b now).projectBuilds =
        db.projectBuilds.map
          (finalizeGo (bindStep (autoTrackStep db b) b) b now) ++ u ∧
      (∀ pb ∈ u, pb.status = "INCOMPLETE" ∧ pb.ended_at = none ∧
        db.nextId ≤ pb.id) := by
  have hshape := autoCreateStep_shape
    (finalizeStep (bindStep (autoTrackStep db b) b) b now) b now
  rcases hshape with ⟨u, v, hu, hv, hn, hpu, hpv⟩
  refine ⟨u, ?_, ?_⟩
  · unfold reconcile
    rw [hu, finalizeStep_eq_map, bindStep_projectBuilds,
      autoTrackStep_projectBuilds]
  · intro pb hpb
    have := hpu pb hpb
    rw [finalizeStep_nextId, bindStep_nextId, autoTrackStep_nextId] at this
    exact this

/-- Claim C7: across reconciliation, every existing ProjectBuild is either
left entirely unchanged or undergoes the one-way finalization transition,
on which `ended_at` goes from null to the current time and the phase
becomes FINALIZED; an already finalized ProjectBuild is never changed; and
the invariant that `ended_at` is null exactly while the status is
INCOMPLETE is preserved (new ProjectBuilds are created INCOMPLETE with a
null `ended_at`). -/
theorem claim_C7 (db : DB) (pk : Nat) (now : PyDateTime)
    (hinv : ∀ q ∈ db.projectBuilds,
      (q.status = "INCOMPLETE" ↔ q.ended_at = none)) :
    (∀ q ∈ db.projectBuilds,
      ∃ q' ∈ (process_build_dependencies db pk now).projectBuilds,
        q'.id = q.id ∧
        (q' = q ∨
          (q.status = "INCOMPLETE" ∧ q.ended_at = none ∧
            q'.status ≠ "INCOMPLETE" ∧ q'.phase = "FINALIZED" ∧
            q'.ended_at = some now))) ∧
    (∀ q ∈ db.projectBuilds, q.status ≠ "INCOMPLETE" →
      q ∈ (process_build_dependencies db pk now).projectBuilds) ∧
    (∀ q ∈ (process_build_dependencies db pk now).projectBuilds,
      (q.status = "INCOMPLETE" ↔ q.ended_at = none)) := by
  unfold process_build_dependencies
  cases hb : lookupBuild db pk with
  | none =>
    refine ⟨?_, ?_, hinv⟩
    · intro q hq
      exact ⟨q, hq, rfl, Or.inl rfl⟩
    · intro q hq _
      exact hq
  | some b =>
    simp only
    rcases reconcile_projectBuilds_decomp db b now with ⟨u, hu, hpu⟩
    set d2 := bindStep (autoTrackStep db b) b with hd2
    refine ⟨?_, ?_, ?_⟩
    · intro q hq
      refine ⟨finalizeGo d2 b now q, ?_, finalizeGo_id d2 b now q, ?_⟩
      · rw [hu]
        exact List.mem_append.mpr (Or.inl (List.mem_map_of_mem _ hq))
      · rcases finalizeGo_cases d2 b now q with h | h
        · exact Or.inl h
        · exact Or.inr ⟨h.1, (hinv q hq).mp h.1, h.2.1, h.2.2.1, h.2.2.2⟩
    · intro q hq hfrozen
      rw [hu]
      refine List.mem_append.mpr (Or.inl ?_)
      rw [← finalizeGo_frozen d2 b now q hfrozen]
      exact List.mem_map_of_mem _ hq
    · intro q hq
      rw [hu] at hq
      rcases List.mem_append.mp hq with h | h
      · rcases List.mem_map.mp h with ⟨q0, hq0, hmap⟩
        rcases finalizeGo_cases d2 b now q0 with hc | hc
        · rw [← hmap, hc]
          exact hinv q0 hq0
        · rw [← hmap]
          constructor
          · intro hs
            exact absurd hs hc.2.1
          · intro he
            rw [hc.2.2.2] at he
            cases he
      · rcases hpu q h with ⟨h1, h2, _⟩
        rw [h1, h2]
        simp

def nowC7 : PyDateTime :=
  { year := 2026, month := 3, day := 4, hour := 10, minute := 0, second := 0,
    microsecond := 0 }

def bC7 : Build :=
  { id := 30, job := 5, build_id := "K7", number := 1, phase := "FINALIZED",
    status := "SUCCESS" }

def pbC7 : ProjectBuild :=
  { id := 20, project := 0, build_key := "K7", status := "INCOMPLETE",
    phase := "UNKNOWN", requested_at := nowC7, ended_at := none }

def dbC7 : DB :=
  { builds := [bC7], artifacts := [],
    dependencies := [{ id := 1, name := "d1", job := some 5 }],
    projectDependencies := [],
    projectBuilds := [pbC7],
    projectBuildDependencies :=
      [{ id := 21, projectbuild := 20, dependency := 1, build := none }],
    archives := [], archiveArtifacts := [], nextId := 50 }

theorem claim_C7_witness :
    ∃ q' ∈ (process_build_dependencies dbC7 30 nowC7).projectBuilds,
      q'.id = pbC7.id ∧
      (q' = pbC7 ∨
        (pbC7.status = "INCOMPLETE" ∧ pbC7.ended_at = none ∧
          q'.status ≠ "INCOMPLETE" ∧ q'.phase = "FINALIZED" ∧
          q'.ended_at = some nowC7)) :=
  (claim_C7 dbC7 30 nowC7 (by decide)).1 pbC7 (by decide)

end ClaimC7

section ReconcileRows

/-- The per-row function of `bindStep`, named for the proofs. -/
def bindGo (d : DB) (b : Build) (r : ProjectBuildDependency) :
    ProjectBuildDependency :=
  if rowMatches d b r && r.build = none then { r with build := some b.id }
  else r

lemma bindStep_eq_map (d : DB) (b : Build) :
    (bindStep d b).projectBuildDependencies =
      d.projectBuildDependencies.map (bindGo d b) := rfl

lemma bindGo_projectbuild (d : DB) (b : Build) (r : ProjectBuildDependency) :
    (bindGo d b r).projectbuild = r.projectbuild := by
  unfold bindGo
  split <;> rfl

lemma bindGo_dependency (d : DB) (b : Build) (r : ProjectBuildDependency) :
    (bindGo d b r).dependency = r.dependency := by
  unfold bindGo
  split <;> rfl

lemma bindGo_id (d : DB) (b : Build) (r : ProjectBuildDependency) :
    (bindGo d b r).id = r.id := by
  unfold bindGo
  split <;> rfl

lemma rowMatches_congr (d1 d2 : DB) (b : Build) (r : ProjectBuildDependency)
    (hdep : d1.dependencies = d2.dependencies)
    (hpb : d1.projectBuilds = d2.projectBuilds) :
    rowMatches d1 b r = rowMatches d2 b r := by
  unfold rowMatches
  rw [hdep, hpb]

lemma rowMatches_fields (d : DB) (b : Build)
    (r r' : ProjectBuildDependency) (hdep : r'.dependency = r.dependency)
    (hpb : r'.projectbuild = r.projectbuild) :
    rowMatches d b r' = rowMatches d b r := by
  unfold rowMatches
  rw [hdep, hpb]

lemma touchedIds_bind (db : DB) (b : Build) :
    touchedIds (bindStep (autoTrackStep db b) b) b = touchedIds db b := by
  unfold touchedIds
  rw [bindStep_eq_map, autoTrackStep_pbds]
  rw [filter_map_comm, List.map_map]
  have h1 : ∀ r : ProjectBuildDependency,
      rowMatches (bindStep (autoTrackStep db b) b) b
        (bindGo (autoTrackStep db b) b r) = rowMatches db b r := by
    intro r
    rw [rowMatches_congr (bindStep (autoTrackStep db b) b) db b _
        (by rw [bindStep_dependencies, autoTrackStep_dependencies])
        (by rw [bindStep_projectBuilds, autoTrackStep_projectBuilds])]
    exact rowMatches_fields db b r _ (bindGo_dependency _ _ _)
      (bindGo_projectbuild _ _ _)
  have h2 : db.projectBuildDependencies.filter
      (fun r => rowMatches (bindStep (autoTrackStep db b) b) b
        (bindGo (autoTrackStep db b) b r)) =
      db.projectBuildDependencies.filter (rowMatches db b) := by
    apply List.filter_congr
    intro r _
    exact h1 r
  rw [h2]
  apply List.map_congr_left
  intro r _
  exact bindGo_projectbuild _ _ _

lemma boundBuild_congr (d1 d2 : DB) (r : ProjectBuildDependency)
    (h : d1.builds = d2.builds) : boundBuild d1 r = boundBuild d2 r := by
  unfold boundBuild lookupBuild
  rw [h]

lemma reconcile_rowsOf (db : DB) (b : Build) (now : PyDateTime) (pbId : Nat)
    (hlt : pbId < db.nextId) :
    rowsOf (reconcile db b now) pbId =
      rowsOf (bindStep (autoTrackStep db b) b) pbId := by
  have hshape := autoCreateStep_shape
    (finalizeStep (bindStep (autoTrackStep db b) b) b now) b now
  rcases hshape with ⟨u, v, _, hv, _, _, hpv⟩
  unfold reconcile
  unfold rowsOf
  rw [hv, finalizeStep_pbds, List.filter_append]
  have hnil : v.filter
      (fun r : ProjectBuildDependency => r.projectbuild = pbId) = [] := by
    rw [List.filter_eq_nil_iff]
    intro r hr
    have := hpv r hr
    rw [finalizeStep_nextId, bindStep_nextId, autoTrackStep_nextId] at this
    simp only [decide_eq_true_eq]
    omega
  rw [hnil, List.append_nil]

lemma rowFinalized_iff (d : DB) (r : ProjectBuildDependency) :
    rowFinalized d r = true ↔
      ∃ bb, boundBuild d r = some bb ∧ bb.phase = "FINALIZED" := by
  unfold rowFinalized
  cases h : boundBuild d r <;> simp

lemma row_fin_succ_iff (d : DB) (r : ProjectBuildDependency) :
    (rowFinalized d r = true ∧ rowSuccessful d r = true) ↔
      ∃ bb, boundBuild d r = some bb ∧ bb.phase = "FINALIZED" ∧
        bb.status = "SUCCESS" := by
  unfold rowFinalized rowSuccessful
  cases h : boundBuild d r <;> simp

lemma allRowsFinalized_iff (d : DB) (pbId : Nat) :
    allRowsFinalized d pbId = true ↔
      ∀ r ∈ rowsOf d pbId,
        ∃ bb, boundBuild d r = some bb ∧ bb.phase = "FINALIZED" := by
  unfold allRowsFinalized
  rw [List.all_eq_true]
  constructor
  · intro h r hr
    exact (rowFinalized_iff d r).mp (h r hr)
  · intro h r hr
    exact (rowFinalized_iff d r).mpr (h r hr)

lemma allRows_fin_succ_iff (d : DB) (pbId : Nat) :
    (allRowsFinalized d pbId = true ∧ allRowsSuccessful d pbId = true) ↔
      ∀ r ∈ rowsOf d pbId,
        ∃ bb, boundBuild d r = some bb ∧ bb.phase = "FINALIZED" ∧
          bb.status = "SUCCESS" := by
  unfold allRowsFinalized allRowsSuccessful
  rw [List.all_eq_true, List.all_eq_true]
  constructor
  · intro h r hr
    exact (row_fin_succ_iff d r).mp ⟨h.1 r hr, h.2 r hr⟩
  · intro h
    constructor
    · intro r hr
      exact ((row_fin_succ_iff d r).mpr (h r hr)).1
    · intro r hr
      exact ((row_fin_succ_iff d r).mpr (h r hr)).2

end ReconcileRows

section ClaimC1

/-- Claim C1: for the ProjectBuild being reconciled (an INCOMPLETE
ProjectBuild owning a row matched by the incoming build), the post-state
status is SUCCESS exactly when every one of its rows has a bound FINALIZED
Build with status SUCCESS; it is FAILURE when all rows are bound to
FINALIZED builds and some bound build did not succeed; it stays INCOMPLETE
while any row is unbound; and whenever the status leaves INCOMPLETE the
phase becomes FINALIZED and `ended_at` is stamped. -/
theorem claim_C1 (db : DB) (pk : Nat) (now : PyDateTime) (b : Build)
    (pb : ProjectBuild)
    (hb : lookupBuild db pk = some b)
    (hpb : pb ∈ db.projectBuilds)
    (hwfPB : ∀ q ∈ db.projectBuilds, q.id < db.nextId)
    (huniq : ∀ q ∈ db.projectBuilds, q.id = pb.id → q = pb)
    (hinc : pb.status = "INCOMPLETE")
    (htouch : pb.id ∈ touchedIds db b) :
    ∀ pb' ∈ (process_build_dependencies db pk now).projectBuilds,
      pb'.id = pb.id →
      ((pb'.status = "SUCCESS" ↔
        ∀ r ∈ rowsOf (process_build_dependencies db pk now) pb.id,
          ∃ bb, boundBuild (process_build_dependencies db pk now) r =
              some bb ∧
            bb.phase = "FINALIZED" ∧ bb.status = "SUCCESS") ∧
      (((∀ r ∈ rowsOf (process_build_dependencies db pk now) pb.id,
          ∃ bb, boundBuild (process_build_dependencies db pk now) r =
              some bb ∧ bb.phase = "FINALIZED") ∧
        (∃ r ∈ rowsOf (process_build_dependencies db pk now) pb.id,
          ∃ bb, boundBuild (process_build_dependencies db pk now) r =
              some bb ∧ bb.status ≠ "SUCCESS")) →
        pb'.status = "FAILURE") ∧
      ((∃ r ∈ rowsOf (process_build_dependencies db pk now) pb.id,
          r.build = none) → pb'.status = "INCOMPLETE") ∧
      (pb'.status ≠ "INCOMPLETE" →
        pb'.phase = "FINALIZED" ∧ pb'.ended_at = some now)) := by
  unfold process_build_dependencies
  rw [hb]
  simp only
  set d2 := bindStep (autoTrackStep db b) b with hd2def
  have hrows : rowsOf (reconcile db b now) pb.id = rowsOf d2 pb.id :=
    reconcile_rowsOf db b now pb.id (hwfPB pb hpb)
  have hbuilds : (reconcile db b now).builds = d2.builds := by
    rw [reconcile_builds, hd2def, bindStep_builds, autoTrackStep_builds]
  have hbbfun : boundBuild (reconcile db b now) = boundBuild d2 :=
    funext (fun r => boundBuild_congr _ _ r hbuilds)
  intro pb' hpb' hid
  rcases reconcile_projectBuilds_decomp db b now with ⟨u, hu, hpu⟩
  rw [hu] at hpb'
  rcases List.mem_append.mp hpb' with hmem | hmem
  swap
  · rcases hpu pb' hmem with ⟨_, _, hge⟩
    rw [hid] at hge
    exact absurd (hwfPB pb hpb) (not_lt.mpr hge)
  rcases List.mem_map.mp hmem with ⟨q0, hq0, hmap⟩
  have hq0id : q0.id = pb.id := by
    rw [← hid, ← hmap, finalizeGo_id]
  have hq0pb : q0 = pb := huniq q0 hq0 hq0id
  rw [hq0pb] at hmap
  have hcont : (touchedIds d2 b).contains pb.id = true := by
    apply List.elem_iff.mpr
    rw [hd2def, touchedIds_bind]
    exact htouch
  rw [hrows, hbbfun]
  rw [← hmap]
  by_cases hfin : allRowsFinalized d2 pb.id = true
  · have hgo : finalizeGo d2 b now pb =
        { pb with
          status :=
            if allRowsSuccessful d2 pb.id then "SUCCESS" else "FAILURE",
          phase := "FINALIZED",
          ended_at := some now } := by
      unfold finalizeGo
      rw [if_pos]
      rw [Bool.and_eq_true, Bool.and_eq_true]
      exact ⟨⟨hcont, by simp [hinc]⟩, hfin⟩
    rw [hgo]
    refine ⟨?_, ?_, ?_, ?_⟩
    · simp only
      constructor
      · intro hs
        have hsucc : allRowsSuccessful d2 pb.id = true := by
          by_contra hns
          rw [if_neg hns] at hs
          exact absurd hs (by decide)
        exact (allRows_fin_succ_iff d2 pb.id).mp ⟨hfin, hsucc⟩
      · intro hall
        have h2 := (allRows_fin_succ_iff d2 pb.id).mpr hall
        rw [if_pos h2.2]
    · rintro ⟨_, r, hr, bb, hbbr, hnsucc⟩
      simp only
      have hns : allRowsSuccessful d2 pb.id ≠ true := by
        intro hcontra
        unfold allRowsSuccessful at hcontra
        rw [List.all_eq_true] at hcontra
        have hrs := hcontra r hr
        unfold rowSuccessful at hrs
        rw [hbbr] at hrs
        exact hnsucc (by simpa using hrs)
      rw [if_neg hns]
    · rintro ⟨r, hr, hnone⟩
      exfalso
      have hrf := (allRowsFinalized_iff d2 pb.id).mp hfin r hr
      rcases hrf with ⟨bb, hbbr, _⟩
      unfold boundBuild at hbbr
      rw [hnone] at hbbr
      cases hbbr
    · intro _
      exact ⟨rfl, rfl⟩
  · have hgo : finalizeGo d2 b now pb = pb := by
      unfold finalizeGo
      rw [if_neg]
      intro hc
      rw [Bool.and_eq_true] at hc
      exact hfin hc.2
    rw [hgo]
    refine ⟨?_, ?_, ?_, ?_⟩
    · constructor
      · intro hs
        rw [hinc] at hs
        exact absurd hs (by decide)
      · intro hall
        exfalso
        apply hfin
        rw [allRowsFinalized_iff]
        intro r hr
        rcases hall r hr with ⟨bb, h1, h2, _⟩
        exact ⟨bb, h1, h2⟩
    · rintro ⟨hallfin, _⟩
      exfalso
      apply hfin
      rw [allRowsFinalized_iff]
      exact hallfin
    · intro _
      exact hinc
    · intro hne
      exact absurd hinc hne

def nowC1 : PyDateTime :=
  { year := 2026, month := 5, day := 6, hour := 9, minute := 30, second := 0,
    microsecond := 0 }

def bC1 : Build :=
  { id := 30, job := 5, build_id := "K1", number := 1, phase := "FINALIZED",
    status := "SUCCESS" }

def pbC1 : ProjectBuild :=
  { id := 20, project := 0, build_key := "K1", status := "INCOMPLETE",
    phase := "UNKNOWN", requested_at := nowC1, ended_at := none }

def dbC1 : DB :=
  { builds := [bC1], artifacts := [],
    dependencies := [{ id := 1, name := "d1", job := some 5 }],
    projectDependencies := [],
    projectBuilds := [pbC1],
    projectBuildDependencies :=
      [{ id := 21, projectbuild := 20, dependency := 1, build := none }],
    archives := [], archiveArtifacts := [], nextId := 50 }

theorem claim_C1_witness :
    ((process_build_dependencies dbC1 30 nowC1).projectBuilds.map
        (fun q => q.status) = ["SUCCESS"]) ∧
      (∀ pb' ∈ (process_build_dependencies dbC1 30 nowC1).projectBuilds,
        pb'.id = pbC1.id → pb'.status ≠ "INCOMPLETE" →
          pb'.phase = "FINALIZED" ∧ pb'.ended_at = some nowC1) := by
  refine ⟨by decide, ?_⟩
  intro pb' hpb' hid
  exact (claim_C1 dbC1 30 nowC1 bC1 pbC1 (by decide) (by decide) (by decide)
    (by decide) (by decide) (by decide) pb' hpb' hid).2.2.2

end ClaimC1

section IdempotenceSupport

lemma find?_congr {α : Type} (l : List α) (p q : α → Bool)
    (h : ∀ x ∈ l, p x = q x) : l.find? p = l.find? q := by
  induction l with
  | nil => rfl
  | cons a t ih =>
    by_cases hp : p a = true
    · rw [List.find?_cons_of_pos _ hp,
        List.find?_cons_of_pos _ (by rw [← h a (by simp)]; exact hp)]
    · rw [List.find?_cons_of_neg _ hp,
        List.find?_cons_of_neg _ (by rw [← h a (by simp)]; exact hp),
        ih (fun x hx => h x (by simp [hx]))]

lemma foldl_fixed {α β : Type} (f : β → α → β) (acc : β) :
    ∀ l : List α, (∀ x ∈ l, f acc x = acc) → l.foldl f acc = acc := by
  intro l
  induction l with
  | nil => intro _; rfl
  | cons a t ih =>
    intro h
    rw [List.foldl_cons, h a (by simp)]
    exact ih (fun x hx => h x (by simp [hx]))

/-- The per-row function of `autoTrackStep`, named for the proofs. -/
def autoTrackGo (d : DB) (b : Build) (pd : ProjectDependency) :
    ProjectDependency :=
  if dependsOnJob d pd b && pd.auto_track then
    { pd with current_build := some b.id }
  else pd

lemma autoTrackStep_eq_map (d : DB) (b : Build) :
    (autoTrackStep d b).projectDependencies =
      d.projectDependencies.map (autoTrackGo d b) := rfl

lemma dependsOnJob_congr (dA dB : DB) (pd : ProjectDependency) (b : Build)
    (h : dA.dependencies = dB.dependencies) :
    dependsOnJob dA pd b = dependsOnJob dB pd b := by
  unfold dependsOnJob
  rw [h]

lemma autoTrackGo_pair (dA dB : DB) (b : Build)
    (hdep : dA.dependencies = dB.dependencies) (pd : ProjectDependency) :
    autoTrackGo dA b (autoTrackGo dB b pd) = autoTrackGo dB b pd := by
  cases pd with
  | mk i dep proj at_ cb =>
    unfold autoTrackGo dependsOnJob
    rw [hdep]
    by_cases h : (dB.dependencies.any (fun d => d.job = some b.job &&
        d.id = dep) && at_) = true
    · simp only at h
      simp [h]
    · simp only at h
      simp [h]

lemma touchedIds_lt (db : DB) (b : Build)
    (hwfR : ∀ r ∈ db.projectBuildDependencies, r.projectbuild < db.nextId) :
    ∀ x ∈ touchedIds db b, x < db.nextId := by
  intro x hx
  unfold touchedIds at hx
  rcases List.mem_map.mp hx with ⟨r, hr, hproj⟩
  rw [← hproj]
  exact hwfR r (List.mem_filter.mp hr).1

lemma autoPairs_congr (dA dB : DB) (b : Build)
    (hdep : dA.dependencies = dB.dependencies)
    (hpds : dA.projectDependencies = dB.projectDependencies) :
    autoPairs dA b = autoPairs dB b := by
  unfold autoPairs depsForJob
  rw [hdep, hpds]

lemma autoPairs_sound (d : DB) (b : Build) :
    ∀ p ∈ autoPairs d b, ∃ pd ∈ d.projectDependencies,
      pd.project = p.2 ∧ pd.dependency = p.1 := by
  unfold autoPairs
  generalize depsForJob d b = l
  induction l with
  | nil => intro p hp; cases hp
  | cons dh t ih =>
    intro p hp
    rw [List.foldr_cons] at hp
    rcases List.mem_append.mp hp with h | h
    · rcases List.mem_map.mp h with ⟨pd, hpd, hmap⟩
      rcases List.mem_filter.mp hpd with ⟨hpdmem, hcond⟩
      rw [Bool.and_eq_true] at hcond
      refine ⟨pd, hpdmem, ?_, ?_⟩
      · rw [← hmap]
      · rw [← hmap]
        simpa using hcond.1
    · exact ih p h

lemma hasPendingPB_mono (d d' : DB) (dep proj : Nat)
    (hpbs : ∃ u, d'.projectBuilds = d.projectBuilds ++ u)
    (hpbds : ∃ v, d'.projectBuildDependencies =
      d.projectBuildDependencies ++ v)
    (h : hasPendingPB d dep proj = true) :
    hasPendingPB d' dep proj = true := by
  rcases hpbs with ⟨u, hu⟩
  rcases hpbds with ⟨v, hv⟩
  unfold hasPendingPB at h ⊢
  rw [List.any_eq_true] at h ⊢
  rcases h with ⟨pb, hpb, hcond⟩
  refine ⟨pb, by rw [hu]; exact List.mem_append.mpr (Or.inl hpb), ?_⟩
  rw [Bool.and_eq_true, Bool.and_eq_true] at hcond ⊢
  refine ⟨hcond.1, ?_⟩
  rw [List.any_eq_true] at hcond ⊢
  rcases hcond.2 with ⟨r, hr, hrc⟩
  exact ⟨r, by rw [hv]; exact List.mem_append.mpr (Or.inl hr), hrc⟩

lemma createProjectBuild_pending (acc : DB) (proj dep : Nat) (b : Build)
    (now : PyDateTime)
    (hpd : ∃ pd ∈ acc.projectDependencies,
      pd.project = proj ∧ pd.dependency = dep) :
    hasPendingPB (createProjectBuild acc proj dep b now) dep proj = true := by
  rcases hpd with ⟨pd, hpdmem, hproj, hdep⟩
  rcases createProjectBuild_shape acc proj dep b now with
    ⟨pb1, rs, h1, h2, _, h4, h5, _, h7, h8, h9⟩
  rcases h9 pd hpdmem hproj with ⟨r, hrmem, hrdep⟩
  unfold hasPendingPB
  rw [List.any_eq_true]
  refine ⟨pb1, by rw [h1]; simp, ?_⟩
  rw [Bool.and_eq_true, Bool.and_eq_true]
  refine ⟨⟨by simp [h7], by simp [h5]⟩, ?_⟩
  rw [List.any_eq_true]
  refine ⟨r, by rw [h2]; exact List.mem_append.mpr (Or.inr hrmem), ?_⟩
  rw [Bool.and_eq_true]
  exact ⟨by simp [h8 r hrmem, h4], by simp [hrdep, hdep]⟩

lemma autoCreate_pending (b : Build) (now : PyDateTime)
    (hphase : b.phase = "FINALIZED") :
    ∀ (ps : List (Nat × Nat)) (acc : DB),
      (∀ p ∈ ps, ∃ pd ∈ acc.projectDependencies,
        pd.project = p.2 ∧ pd.dependency = p.1) →
      ∀ p ∈ ps,
        hasPendingPB (ps.foldl (autoCreateGo b now) acc) p.1 p.2 = true := by
  intro ps
  induction ps with
  | nil => intro acc _ p hp; cases hp
  | cons ph t ih =>
    intro acc hpds p hp
    rw [List.foldl_cons]
    have hshape := autoCreate_shape b now t (autoCreateGo b now acc ph)
    rcases hshape with ⟨u, v, hu, hv, _, _, _⟩
    rcases List.mem_cons.mp hp with hp1 | hp1
    · have hpend : hasPendingPB (autoCreateGo b now acc ph) ph.1 ph.2 = true := by
        by_cases hc : (b.phase = "FINALIZED" && !(hasPendingPB acc ph.1 ph.2)) = true
        · have hgo : autoCreateGo b now acc ph =
              createProjectBuild acc ph.2 ph.1 b now := by
            unfold autoCreateGo
            rw [if_pos hc]
          rw [hgo]
          exact createProjectBuild_pending acc ph.2 ph.1 b now
            (hpds ph (by simp))
        · have hgo : autoCreateGo b now acc ph = acc := by
            unfold autoCreateGo
            rw [if_neg hc]
          rw [hgo]
          rw [Bool.and_eq_true] at hc
          push_neg at hc
          have := hc (by simp [hphase])
          simpa using this
      rw [hp1]
      exact hasPendingPB_mono _ _ ph.1 ph.2 ⟨u, hu⟩ ⟨v, hv⟩ hpend
    · refine ih (autoCreateGo b now acc ph) ?_ p hp1
      intro q hq
      rw [autoCreateGo_pds]
      exact hpds q (by simp [hq])

end IdempotenceSupport

section IdempotenceSteps

lemma reconcile_decomp (db : DB) (b : Build) (now1 : PyDateTime) :
    ∃ u v,
      (reconcile db b now1).projectBuilds =
        db.projectBuilds.map
          (finalizeGo (bindStep (autoTrackStep db b) b) b now1) ++ u ∧
      (reconcile db b now1).projectBuildDependencies =
        db.projectBuildDependencies.map (bindGo (autoTrackStep db b) b) ++
          v ∧
      (∀ pb ∈ u, pb.status = "INCOMPLETE" ∧ pb.ended_at = none ∧
        db.nextId ≤ pb.id) ∧
      (∀ r ∈ v, db.nextId ≤ r.projectbuild) := by
  rcases autoCreateStep_shape
      (finalizeStep (bindStep (autoTrackStep db b) b) b now1) b now1 with
    ⟨u, v, hu, hv, _, hpu, hpv⟩
  refine ⟨u, v, ?_, ?_, ?_, ?_⟩
  · unfold reconcile
    rw [hu, finalizeStep_eq_map, bindStep_projectBuilds,
      autoTrackStep_projectBuilds]
  · unfold reconcile
    rw [hv, finalizeStep_pbds, bindStep_eq_map, autoTrackStep_pbds]
  · intro pb hpb
    have := hpu pb hpb
    rwa [finalizeStep_nextId, bindStep_nextId, autoTrackStep_nextId] at this
  · intro r hr
    have := hpv r hr
    rwa [finalizeStep_nextId, bindStep_nextId, autoTrackStep_nextId] at this

lemma reconcile_pds (db : DB) (b : Build) (now1 : PyDateTime) :
    (reconcile db b now1).projectDependencies =
      db.projectDependencies.map (autoTrackGo db b) := by
  unfold reconcile
  rw [autoCreateStep_pds, finalizeStep_pds, bindStep_pds,
    autoTrackStep_eq_map]

lemma reconcile_find_pb (db : DB) (b : Build) (now1 : PyDateTime)
    (pbId : Nat) (hlt : pbId < db.nextId) :
    (reconcile db b now1).projectBuilds.find? (fun q => q.id = pbId) =
      Option.map (finalizeGo (bindStep (autoTrackStep db b) b) b now1)
        (db.projectBuilds.find? (fun q => q.id = pbId)) := by
  rcases reconcile_decomp db b now1 with ⟨u, v, hu, _, hpu, _⟩
  rw [hu, find?_append_cases, find?_map_comm]
  have hcong : db.projectBuilds.find?
      (fun x => decide ((finalizeGo (bindStep (autoTrackStep db b) b) b
        now1 x).id = pbId)) =
      db.projectBuilds.find? (fun q => decide (q.id = pbId)) := by
    apply find?_congr
    intro x _
    rw [finalizeGo_id]
  rw [hcong]
  cases h : db.projectBuilds.find? (fun q => decide (q.id = pbId)) with
  | some q => rfl
  | none =>
    simp only [Option.map_none']
    rw [List.find?_eq_none]
    intro pb hpb
    have := (hpu pb hpb).2.2
    simp only [decide_eq_true_eq]
    omega

lemma reconcile_rowMatches_old (db : DB) (b : Build) (now1 : PyDateTime)
    (x : ProjectBuildDependency) (hlt : x.projectbuild < db.nextId) :
    rowMatches (reconcile db b now1) b x = rowMatches db b x := by
  unfold rowMatches
  rw [reconcile_dependencies, reconcile_find_pb db b now1 x.projectbuild hlt]
  cases h : db.projectBuilds.find? (fun q => q.id = x.projectbuild) with
  | none => rfl
  | some q =>
    simp only [Option.map_some']
    rw [finalizeGo_key]

lemma reconcile_rowMatches_new (db : DB) (b : Build) (now1 : PyDateTime)
    (x : ProjectBuildDependency) (hge : db.nextId ≤ x.projectbuild)
    (hkey : ∀ q ∈ (reconcile db b now1).projectBuilds,
      q.build_key = b.build_id → q.id < db.nextId) :
    rowMatches (reconcile db b now1) b x = false := by
  unfold rowMatches
  cases hf : (reconcile db b now1).projectBuilds.find?
      (fun q => q.id = x.projectbuild) with
  | none => simp [hf]
  | some q =>
    have hqmem := List.mem_of_find?_eq_some hf
    have hqid : q.id = x.projectbuild := by
      simpa using List.find?_some hf
    have hk : q.build_key ≠ b.build_id := by
      intro hk
      have := hkey q hqmem hk
      omega
    simp [hf, hk]

lemma reconcile_touchedIds (db : DB) (b : Build) (now1 : PyDateTime)
    (hwfR : ∀ r ∈ db.projectBuildDependencies, r.projectbuild < db.nextId)
    (hkey : ∀ q ∈ (reconcile db b now1).projectBuilds,
      q.build_key = b.build_id → q.id < db.nextId) :
    touchedIds (reconcile db b now1) b = touchedIds db b := by
  rcases reconcile_decomp db b now1 with ⟨u, v, _, hv, _, hpv⟩
  unfold touchedIds
  rw [hv, List.filter_append]
  have hnil : v.filter (rowMatches (reconcile db b now1) b) = [] := by
    rw [List.filter_eq_nil_iff]
    intro r hr
    rw [reconcile_rowMatches_new db b now1 r (hpv r hr) hkey]
    simp
  rw [hnil, List.append_nil, filter_map_comm]
  have hcong : db.projectBuildDependencies.filter
      (fun r => rowMatches (reconcile db b now1) b
        (bindGo (autoTrackStep db b) b r)) =
      db.projectBuildDependencies.filter (rowMatches db b) := by
    apply List.filter_congr
    intro r hr
    rw [reconcile_rowMatches_old db b now1 _ (by
      rw [bindGo_projectbuild]
      exact hwfR r hr)]
    exact rowMatches_fields db b r _ (bindGo_dependency _ _ _)
      (bindGo_projectbuild _ _ _)
  rw [hcong, List.map_map]
  apply List.map_congr_left
  intro r _
  exact bindGo_projectbuild _ _ _

lemma rowFinalized_fun_congr (dX dY : DB) (h : dX.builds = dY.builds) :
    rowFinalized dX = rowFinalized dY := by
  funext r
  unfold rowFinalized boundBuild lookupBuild
  rw [h]

lemma reconcile_rowsOf_lt (db : DB) (b : Build) (now1 : PyDateTime)
    (pbId : Nat) (hlt : pbId < db.nextId) :
    rowsOf (reconcile db b now1) pbId =
      rowsOf (bindStep (autoTrackStep db b) b) pbId :=
  reconcile_rowsOf db b now1 pbId hlt

lemma reconcile_allRowsFinalized (db : DB) (b : Build) (now1 : PyDateTime)
    (pbId : Nat) (hlt : pbId < db.nextId) :
    allRowsFinalized (reconcile db b now1) pbId =
      allRowsFinalized (bindStep (autoTrackStep db b) b) pbId := by
  unfold allRowsFinalized
  rw [reconcile_rowsOf_lt db b now1 pbId hlt,
    rowFinalized_fun_congr (reconcile db b now1)
      (bindStep (autoTrackStep db b) b)
      (by rw [reconcile_builds, bindStep_builds, autoTrackStep_builds])]

end IdempotenceSteps

section IdempotenceMain

lemma second_autoTrack (db : DB) (b : Build) (now1 : PyDateTime) :
    autoTrackStep (reconcile db b now1) b = reconcile db b now1 := by
  have hpds := reconcile_pds db b now1
  have hmap : (reconcile db b now1).projectDependencies.map
      (autoTrackGo (reconcile db b now1) b) =
      (reconcile db b now1).projectDependencies := by
    rw [hpds, List.map_map]
    apply List.map_congr_left
    intro pd _
    exact autoTrackGo_pair (reconcile db b now1) db b
      (reconcile_dependencies db b now1) pd
  show { reconcile db b now1 with
    projectDependencies := (reconcile db b now1).projectDependencies.map
      (autoTrackGo (reconcile db b now1) b) } = reconcile db b now1
  rw [hmap]

lemma second_bind (db : DB) (b : Build) (now1 : PyDateTime)
    (hwfR : ∀ r ∈ db.projectBuildDependencies, r.projectbuild < db.nextId)
    (hkey : ∀ q ∈ (reconcile db b now1).projectBuilds,
      q.build_key = b.build_id → q.id < db.nextId) :
    bindStep (reconcile db b now1) b = reconcile db b now1 := by
  rcases reconcile_decomp db b now1 with ⟨u, v, _, hv, _, hpv⟩
  have hmap : (reconcile db b now1).projectBuildDependencies.map
      (bindGo (reconcile db b now1) b) =
      (reconcile db b now1).projectBuildDependencies := by
    apply map_eq_self
    intro x hx
    rw [hv] at hx
    rcases List.mem_append.mp hx with hx1 | hx1
    · rcases List.mem_map.mp hx1 with ⟨r0, hr0, hr0map⟩
      have hxproj : x.projectbuild = r0.projectbuild := by
        rw [← hr0map]
        exact bindGo_projectbuild _ _ _
      have hm1 : rowMatches (reconcile db b now1) b x =
          rowMatches db b r0 := by
        rw [reconcile_rowMatches_old db b now1 x
          (by rw [hxproj]; exact hwfR r0 hr0)]
        rw [← hr0map]
        exact rowMatches_fields db b r0 _ (bindGo_dependency _ _ _)
          (bindGo_projectbuild _ _ _)
      have hm0 : rowMatches (autoTrackStep db b) b r0 =
          rowMatches db b r0 :=
        rowMatches_congr (autoTrackStep db b) db b r0
          (autoTrackStep_dependencies db b)
          (autoTrackStep_projectBuilds db b)
      by_cases hc0 : (rowMatches (autoTrackStep db b) b r0 &&
          r0.build = none) = true
      · have hx0 : x = { r0 with build := some b.id } := by
          rw [← hr0map]
          unfold bindGo
          rw [if_pos hc0]
        unfold bindGo
        rw [if_neg]
        intro hc
        rw [Bool.and_eq_true] at hc
        have : x.build = none := by simpa using hc.2
        rw [hx0] at this
        cases this
      · have hx0 : x = r0 := by
          rw [← hr0map]
          unfold bindGo
          rw [if_neg hc0]
        unfold bindGo
        rw [if_neg]
        intro hc
        rw [Bool.and_eq_true] at hc
        apply hc0
        rw [Bool.and_eq_true]
        constructor
        · rw [hm0, ← hm1, hx0]
          rw [hx0] at hc
          exact hc.1
        · rw [hx0] at hc
          exact hc.2
    · unfold bindGo
      rw [if_neg]
      intro hc
      rw [Bool.and_eq_true] at hc
      rw [reconcile_rowMatches_new db b now1 x (hpv x hx1) hkey] at hc
      cases hc.1
  show { reconcile db b now1 with
    projectBuildDependencies :=
      (reconcile db b now1).projectBuildDependencies.map
        (bindGo (reconcile db b now1) b) } = reconcile db b now1
  rw [hmap]

lemma second_finalize (db : DB) (b : Build) (now1 now2 : PyDateTime)
    (hwfPB : ∀ q ∈ db.projectBuilds, q.id < db.nextId)
    (hwfR : ∀ r ∈ db.projectBuildDependencies, r.projectbuild < db.nextId)
    (hkey : ∀ q ∈ (reconcile db b now1).projectBuilds,
      q.build_key = b.build_id → q.id < db.nextId) :
    finalizeStep (reconcile db b now1) b now2 = reconcile db b now1 := by
  rcases reconcile_decomp db b now1 with ⟨u, v, hu, _, hpu, _⟩
  have htid : touchedIds (reconcile db b now1) b = touchedIds db b :=
    reconcile_touchedIds db b now1 hwfR hkey
  have hmap : (reconcile db b now1).projectBuilds.map
      (finalizeGo (reconcile db b now1) b now2) =
      (reconcile db b now1).projectBuilds := by
    apply map_eq_self
    intro q hq
    rw [hu] at hq
    rcases List.mem_append.mp hq with hq1 | hq1
    · rcases List.mem_map.mp hq1 with ⟨q0, hq0, hq0map⟩
      by_cases hc1 : ((touchedIds (bindStep (autoTrackStep db b) b)
          b).contains q0.id && q0.status = "INCOMPLETE" &&
          allRowsFinalized (bindStep (autoTrackStep db b) b) q0.id) = true
      · have hqs : q.status ≠ "INCOMPLETE" := by
          rw [← hq0map]
          unfold finalizeGo
          rw [if_pos hc1]
          simp only
          split <;> decide
        exact finalizeGo_frozen _ b now2 q hqs
      · have hq0q : q = q0 := by
          rw [← hq0map]
          unfold finalizeGo
          rw [if_neg hc1]
        rw [hq0q]
        unfold finalizeGo
        rw [if_neg]
        intro hc
        apply hc1
        rw [Bool.and_eq_true, Bool.and_eq_true] at hc ⊢
        refine ⟨⟨?_, hc.1.2⟩, ?_⟩
        · rw [touchedIds_bind, ← htid]
          exact hc.1.1
        · rw [← reconcile_allRowsFinalized db b now1 q0.id
            (hwfPB q0 hq0)]
          exact hc.2
    · have hqid := (hpu q hq1).2.2
      unfold finalizeGo
      rw [if_neg]
      intro hc
      rw [Bool.and_eq_true, Bool.and_eq_true] at hc
      have hmem : q.id ∈ touchedIds (reconcile db b now1) b :=
        List.elem_iff.mp hc.1.1
      rw [htid] at hmem
      have := touchedIds_lt db b hwfR q.id hmem
      omega
  show { reconcile db b now1 with
    projectBuilds := (reconcile db b now1).projectBuilds.map
      (finalizeGo (reconcile db b now1) b now2) } = reconcile db b now1
  rw [hmap]

lemma second_autoCreate (db : DB) (b : Build) (now1 now2 : PyDateTime) :
    autoCreateStep (reconcile db b now1) b now2 = reconcile db b now1 := by
  rw [autoCreateStep_eq_foldl]
  apply foldl_fixed
  intro p hp
  unfold autoCreateGo
  rw [if_neg]
  intro hc
  rw [Bool.and_eq_true] at hc
  have hph : b.phase = "FINALIZED" := by simpa using hc.1
  have hpairs : autoPairs (reconcile db b now1) b =
      autoPairs (finalizeStep (bindStep (autoTrackStep db b) b) b now1) b := by
    apply autoPairs_congr
    · rw [reconcile_dependencies, finalizeStep_dependencies,
        bindStep_dependencies, autoTrackStep_dependencies]
    · rw [reconcile_pds, finalizeStep_pds, bindStep_pds,
        autoTrackStep_eq_map]
  have hsound := autoPairs_sound
    (finalizeStep (bindStep (autoTrackStep db b) b) b now1) b
  have hpend := autoCreate_pending b now1 hph
    (autoPairs (finalizeStep (bindStep (autoTrackStep db b) b) b now1) b)
    (finalizeStep (bindStep (autoTrackStep db b) b) b now1) hsound p
    (by rw [← hpairs]; exact hp)
  have hdb1 : (autoPairs (finalizeStep (bindStep (autoTrackStep db b) b) b
      now1) b).foldl (autoCreateGo b now1)
      (finalizeStep (bindStep (autoTrackStep db b) b) b now1) =
      reconcile db b now1 := by
    rw [← autoCreateStep_eq_foldl]
    rfl
  rw [hdb1] at hpend
  rw [hpend] at hc
  simpa using hc.2

/-- Claim C6, amended: reconciling the same build twice yields exactly the
state of reconciling it once, provided the incoming build's `build_id`
does not collide with the `build_key` of a ProjectBuild freshly created by
the first reconciliation (row primary keys well-formed below the store's
fresh-key counter).  Binding is idempotent: a row already bound is never
rebound. -/
theorem claim_C6_amended (db : DB) (pk : Nat) (now1 now2 : PyDateTime)
    (b : Build) (hb : lookupBuild db pk = some b)
    (hwfPB : ∀ q ∈ db.projectBuilds, q.id < db.nextId)
    (hwfR : ∀ r ∈ db.projectBuildDependencies, r.projectbuild < db.nextId)
    (hkey : ∀ q ∈ (process_build_dependencies db pk now1).projectBuilds,
      q.build_key = b.build_id → q.id < db.nextId) :
    process_build_dependencies (process_build_dependencies db pk now1) pk
        now2 =
      process_build_dependencies db pk now1 := by
  have hp1 : process_build_dependencies db pk now1 = reconcile db b now1 := by
    unfold process_build_dependencies
    rw [hb]
  rw [hp1] at hkey ⊢
  have hlook : lookupBuild (reconcile db b now1) pk = some b := by
    unfold lookupBuild
    rw [reconcile_builds]
    exact hb
  have hp2 : process_build_dependencies (reconcile db b now1) pk now2 =
      reconcile (reconcile db b now1) b now2 := by
    unfold process_build_dependencies
    rw [hlook]
  rw [hp2]
  show autoCreateStep (finalizeStep (bindStep
      (autoTrackStep (reconcile db b now1) b) b) b now2) b now2 =
    reconcile db b now1
  rw [second_autoTrack db b now1, second_bind db b now1 hwfR hkey,
    second_finalize db b now1 now2 hwfPB hwfR hkey,
    second_autoCreate db b now1 now2]

end IdempotenceMain

section ClaimC6Data

/-- Noon of 2026-01-01. -/
def nowC6 : PyDateTime :=
  { year := 2026, month := 1, day := 1, hour := 12, minute := 0, second := 0,
    microsecond := 0 }

/-- A FINALIZED successful build whose `build_id` coincides with the first
daily key generated on 2026-01-01. -/
def bC6 : Build :=
  { id := 3, job := 5, build_id := "20260101.0", number := 1,
    phase := "FINALIZED", status := "SUCCESS" }

/-- A store with a single project auto-tracking the build's dependency and
no ProjectBuild yet: the first reconciliation auto-creates a ProjectBuild
whose key collides with the incoming build's `build_id`. -/
def dbC6 : DB :=
  { builds := [bC6], artifacts := [],
    dependencies := [{ id := 1, name := "dep1", job := some 5 }],
    projectDependencies :=
      [{ id := 2, dependency := 1, project := 0, auto_track := true,
         current_build := none }],
    projectBuilds := [], projectBuildDependencies := [], archives := [],
    archiveArtifacts := [], nextId := 10 }

/-- Claim C6 as stated is false: when the incoming build's `build_id`
collides with the key of the ProjectBuild auto-created by the first
reconciliation, the second reconciliation finalizes that ProjectBuild and
auto-creates another one, so the state after two calls differs from the
state after one. -/
theorem claim_C6_counterexample :
    process_build_dependencies (process_build_dependencies dbC6 3 nowC6) 3
        nowC6 ≠
      process_build_dependencies dbC6 3 nowC6 := by
  decide

/-- A store where the incoming build was explicitly requested: its
`build_id` is the key of an existing ProjectBuild, and no fresh
ProjectBuild with a colliding key is created. -/
def dbC6W : DB :=
  { builds :=
      [{ id := 30, job := 5, build_id := "K", number := 1,
         phase := "FINALIZED", status := "SUCCESS" }],
    artifacts := [],
    dependencies :=
      [{ id := 1, name := "d1", job := some 5 },
       { id := 2, name := "d2", job := some 6 }],
    projectDependencies :=
      [{ id := 3, dependency := 1, project := 0, auto_track := true,
         current_build := none },
       { id := 4, dependency := 2, project := 0, auto_track := false,
         current_build := some 99 }],
    projectBuilds :=
      [{ id := 20, project := 0, build_key := "K", status := "INCOMPLETE",
         phase := "UNKNOWN", requested_at := nowC6, ended_at := none }],
    projectBuildDependencies :=
      [{ id := 21, projectbuild := 20, dependency := 1, build := none },
       { id := 22, projectbuild := 20, dependency := 2, build := none }],
    archives := [], archiveArtifacts := [], nextId := 50 }

theorem claim_C6_amended_witness :
    process_build_dependencies (process_build_dependencies dbC6W 30 nowC6)
        30 nowC6 =
      process_build_dependencies dbC6W 30 nowC6 :=
  claim_C6_amended dbC6W 30 nowC6 nowC6
    { id := 30, job := 5, build_id := "K", number := 1,
      phase := "FINALIZED", status := "SUCCESS" }
    (by decide) (by decide) (by decide) (by decide)

end ClaimC6Data
